import Mathlib

/-!
Verification of the lazycap process/plugin/protocol core.

Each definition below is a shallow embedding of a function of the Go
source; machine-level concerns (JSON wire syntax, OS pipes, goroutine
scheduling) are modelled by explicit outcome parameters, and the
sequential semantics of each handler is translated statement by
statement.  The theorems at the end of the file settle the specification
claims against these definitions.
-/

namespace LazyCap

/-! ## Settings: per-tool MCP enablement (internal/settings, `src/unnamed/part_001`) -/

/-- The user-facing settings relevant to the MCP server: the master
`mcpEnabled` flag and the per-tool enabled/disabled map `mcpTools`
(a Go `map[string]bool`, modelled as an association list). -/
structure Settings where
  MCPEnabled : Bool
  MCPTools   : List (String × Bool)
deriving Repr, DecidableEq

/-- `AllMCPTools` from the settings package: the list of all available
MCP tools of the standalone server. -/
def AllMCPTools : List String :=
  ["list_projects", "list_devices", "run_on_device", "sync", "build",
   "open_ide", "get_project", "get_debug_actions", "run_debug_action"]

/-- `Settings.IsMCPToolEnabled`: a tool is enabled iff the master flag is
set and the per-tool map either has an explicit `true` entry or no entry
at all (default to enabled). -/
def Settings.IsMCPToolEnabled (s : Settings) (tool : String) : Bool :=
  if !s.MCPEnabled then
    false
  else
    match s.MCPTools.lookup tool with
    | some enabled => enabled
    | none => true

/-- Go map assignment `m[k] = v` on an association list. -/
def setAssoc {β : Type} (m : List (String × β)) (k : String) (v : β) :
    List (String × β) :=
  match m with
  | [] => [(k, v)]
  | (k', v') :: rest => if k' = k then (k, v) :: rest else (k', v') :: setAssoc rest k v

def Settings.SetMCPToolEnabled (s : Settings) (tool : String) (enabled : Bool) :
    Settings :=
  { s with MCPTools := setAssoc s.MCPTools tool enabled }

/-- `Settings.GetEnabledMCPTools`: nil when the master flag is off,
otherwise every tool of `AllMCPTools` that `IsMCPToolEnabled` accepts. -/
def Settings.GetEnabledMCPTools (s : Settings) : List String :=
  if !s.MCPEnabled then
    []
  else
    AllMCPTools.filter (fun tool => s.IsMCPToolEnabled tool)

/-! ## The plugin MCP server (`src/internal/plugins/mcp/mcp.go`)

The JSON wire format is modelled by a `Parsed` oracle (a line either
fails `json.Unmarshal` or yields the decoded request), and the
capability-set `plugin.Context` by a record of the data and outcomes the
context operations return.  Every call into the context is recorded as
an `Effect`, so "the operation was executed" is observable. -/

namespace MCPServer

/-- Structured JSON data handed to `toJSON` (an external serializer). -/
inductive Json
  | str (s : String)
  | bool (b : Bool)
  | int (n : Int)
  | arr (xs : List Json)
  | obj (fields : List (String × Json))
deriving Repr

/-- A value of a decoded `map[string]interface{}` argument map. -/
inductive ArgValue
  | str (s : String)
  | bool (b : Bool)
  | num (n : Int)
deriving Repr, DecidableEq

abbrev Args := List (String × ArgValue)

/-- `args[k].(string)` with the zero value on a missing key or failed
type assertion. -/
def getStr (args : Args) (k : String) : String :=
  match args.lookup k with
  | some (.str s) => s
  | _ => ""

/-- `args[k].(bool)` with the zero value on a missing key or failed
type assertion. -/
def getBool (args : Args) (k : String) : Bool :=
  match args.lookup k with
  | some (.bool b) => b
  | _ => false

/-- `t, ok := args[k].(float64)`: the numeric argument when present. -/
def getNum (args : Args) (k : String) : Option Int :=
  match args.lookup k with
  | some (.num n) => some n
  | _ => none

/-- `json.Unmarshal` outcome for a piece of wire data. -/
inductive Parsed (α : Type)
  | malformed
  | ok (val : α)
deriving Repr, DecidableEq

structure Device where
  id : String
  name : String
  platform : String
  online : Bool
  isEmulator : Bool
  isWeb : Bool
deriving Repr, DecidableEq

structure ProcInfo where
  id : String
  name : String
  command : String
  status : String
deriving Repr, DecidableEq

structure DebugAction where
  id : String
  name : String
  description : String
  category : String
  dangerous : Bool
deriving Repr, DecidableEq

structure Project where
  name : String
  appId : String
  webDir : String
  rootDir : String
  hasAndroid : Bool
  hasIOS : Bool
deriving Repr, DecidableEq

/-- A capability-set call performed by a tool handler. -/
inductive Effect
  | getDevices
  | runOnDevice (deviceId : String) (liveReload : Bool)
  | runWeb
  | sync (platform : String)
  | build
  | openIDE (platform : String)
  | getProcesses
  | getProcessLogs (processId : String)
  | getAllLogs
  | killProcess (processId : String)
  | getDebugActions
  | runDebugAction (actionId : String)
  | getSettings
  | setSetting (key : String)
  | getProject
deriving Repr, DecidableEq

/-- The `plugin.Context` boundary: the data its accessors return and the
error outcomes of its fallible operations, fixed per scenario. -/
structure Ctx where
  devices : List Device
  runOnDeviceErr : String → Bool → Option String
  runWebErr : Option String
  syncErr : String → Option String
  buildErr : Option String
  openIDEErr : String → Option String
  processes : List ProcInfo
  processLogs : String → List String
  allLogs : List (String × List String)
  killProcessErr : String → Option String
  debugActions : List DebugAction
  runDebugActionResult : String → Json
  settingsData : Json
  setSettingErr : String → Option String
  project : Option Project

structure MCPError where
  code : Int
  message : String
deriving Repr, DecidableEq

/-- The `result` payload of a successful tool call: `mcpContent` around a
literal text or around `toJSON` of structured data. -/
inductive ToolResult
  | text (s : String)
  | json (v : Json)
deriving Repr

/-- The `(interface{}, *MCPError)` pair returned by one tool handler,
together with the capability calls it performed. -/
structure ToolOut where
  result : Option ToolResult
  error : Option MCPError
  effects : List Effect
deriving Repr

/-- Whether `sub` is an initial segment of `l`. -/
def beginsWith : List Char → List Char → Bool
  | [], _ => true
  | _ :: _, [] => false
  | a :: as, b :: bs => a = b && beginsWith as bs

/-- Whether `sub` occurs contiguously inside `l`. -/
def containsSeq (sub : List Char) : List Char → Bool
  | [] => sub.isEmpty
  | b :: rest => beginsWith sub (b :: rest) || containsSeq sub rest

/-- `strings.Contains`. -/
def strContains (s sub : String) : Bool :=
  containsSeq sub.data s.data

/-- `strings.HasPrefix`. -/
def strStartsWith (s pre : String) : Bool :=
  beginsWith pre.data s.data

/-- `strings.ToLower`. -/
def toLowerStr (s : String) : String :=
  String.mk (s.data.map Char.toLower)

/-- `containsIgnoreCase` from mcp.go. -/
def containsIgnoreCase (s sub : String) : Bool :=
  strContains (toLowerStr s) (toLowerStr sub)

def toolListDevices (c : Ctx) : ToolOut :=
  { result := some (.json (.arr (c.devices.map (fun d =>
      .obj [("id", .str d.id), ("name", .str d.name),
            ("platform", .str d.platform), ("online", .bool d.online),
            ("isEmulator", .bool d.isEmulator), ("isWeb", .bool d.isWeb)]))))
    error := none
    effects := [.getDevices] }

def toolRunOnDevice (c : Ctx) (args : Args) : ToolOut :=
  let deviceID := getStr args "deviceId"
  let liveReload := getBool args "liveReload"
  if deviceID = "" then
    { result := none, error := some ⟨-32602, "deviceId required"⟩, effects := [] }
  else
    match c.runOnDeviceErr deviceID liveReload with
    | some e =>
      { result := none, error := some ⟨-32000, e⟩
        effects := [.runOnDevice deviceID liveReload] }
    | none =>
      { result := some (.text ("Started run on " ++ deviceID)), error := none
        effects := [.runOnDevice deviceID liveReload] }

def toolRunWeb (c : Ctx) : ToolOut :=
  match c.runWebErr with
  | some e => { result := none, error := some ⟨-32000, e⟩, effects := [.runWeb] }
  | none => { result := some (.text "Web dev server started"), error := none, effects := [.runWeb] }

def toolSync (c : Ctx) (args : Args) : ToolOut :=
  let platform := getStr args "platform"
  match c.syncErr platform with
  | some e => { result := none, error := some ⟨-32000, e⟩, effects := [.sync platform] }
  | none =>
    let msg := if platform ≠ "" then "Sync started for " ++ platform else "Sync started"
    { result := some (.text msg), error := none, effects := [.sync platform] }

def toolBuild (c : Ctx) : ToolOut :=
  match c.buildErr with
  | some e => { result := none, error := some ⟨-32000, e⟩, effects := [.build] }
  | none => { result := some (.text "Build started"), error := none, effects := [.build] }

def toolOpenIDE (c : Ctx) (args : Args) : ToolOut :=
  let platform := getStr args "platform"
  if platform = "" then
    { result := none, error := some ⟨-32602, "platform required"⟩, effects := [] }
  else
    match c.openIDEErr platform with
    | some e => { result := none, error := some ⟨-32000, e⟩, effects := [.openIDE platform] }
    | none =>
      { result := some (.text ("Opening " ++ platform ++ " IDE")), error := none
        effects := [.openIDE platform] }

def toolGetProcesses (c : Ctx) : ToolOut :=
  { result := some (.json (.arr (c.processes.map (fun p =>
      .obj [("id", .str p.id), ("name", .str p.name),
            ("command", .str p.command), ("status", .str p.status)]))))
    error := none
    effects := [.getProcesses] }

def toolGetLogs (c : Ctx) (args : Args) : ToolOut :=
  let processID := getStr args "processId"
  if processID = "" then
    { result := none, error := some ⟨-32602, "processId required"⟩, effects := [] }
  else
    { result := some (.json (.arr ((c.processLogs processID).map .str))), error := none
      effects := [.getProcessLogs processID] }

/-- The error indicator patterns of `toolGetAllLogs`. -/
def errorPatterns : List String :=
  ["error", "Error", "ERROR", "failed", "Failed", "FAILED",
   "exception", "Exception", "panic", "Panic", "PANIC",
   "fatal", "Fatal", "FATAL"]

def toolGetAllLogs (c : Ctx) (args : Args) : ToolOut :=
  let typeFilter := getStr args "type"
  let statusFilter := getStr args "status"
  let searchPattern := getStr args "search"
  let errorsOnly := getBool args "errors_only"
  let tail : Int := match getNum args "tail" with | some t => t | none => 0
  let entries := c.processes.filterMap (fun proc =>
    if typeFilter ≠ "" ∧
        ¬(containsIgnoreCase proc.name typeFilter = true ∨
          containsIgnoreCase proc.command typeFilter = true) then
      none
    else if statusFilter ≠ "" ∧ proc.status ≠ statusFilter then
      none
    else
      match c.allLogs.lookup proc.id with
      | none => none
      | some logs0 =>
        let logs1 := if searchPattern ≠ "" then
            logs0.filter (fun line => containsIgnoreCase line searchPattern)
          else logs0
        let logs2 := if errorsOnly then
            logs1.filter (fun line => errorPatterns.any (fun pat => strContains line pat))
          else logs1
        if logs2.length = 0 ∧ (searchPattern ≠ "" ∨ errorsOnly = true) then
          none
        else
          let logs3 := if 0 < tail ∧ (tail : Int) < logs2.length then
              logs2.drop (logs2.length - tail.toNat)
            else logs2
          some (proc.id, Json.obj
            [("name", .str proc.name), ("status", .str proc.status),
             ("command", .str proc.command), ("logs", .arr (logs3.map .str))]))
  { result := some (.json (.obj entries)), error := none
    effects := [.getAllLogs, .getProcesses] }

def toolKillProcess (c : Ctx) (args : Args) : ToolOut :=
  let processID := getStr args "processId"
  if processID = "" then
    { result := none, error := some ⟨-32602, "processId required"⟩, effects := [] }
  else
    match c.killProcessErr processID with
    | some e => { result := none, error := some ⟨-32000, e⟩, effects := [.killProcess processID] }
    | none =>
      { result := some (.text "Process killed"), error := none
        effects := [.killProcess processID] }

def toolGetDebugActions (c : Ctx) : ToolOut :=
  { result := some (.json (.arr (c.debugActions.map (fun a =>
      .obj [("id", .str a.id), ("name", .str a.name),
            ("description", .str a.description), ("category", .str a.category),
            ("dangerous", .bool a.dangerous)]))))
    error := none
    effects := [.getDebugActions] }

def toolRunDebugAction (c : Ctx) (args : Args) : ToolOut :=
  let actionID := getStr args "actionId"
  if actionID = "" then
    { result := none, error := some ⟨-32602, "actionId required"⟩, effects := [] }
  else
    { result := some (.json (c.runDebugActionResult actionID)), error := none
      effects := [.runDebugAction actionID] }

def toolGetSettings (c : Ctx) : ToolOut :=
  { result := some (.json c.settingsData), error := none, effects := [.getSettings] }

def toolSetSetting (c : Ctx) (args : Args) : ToolOut :=
  let key := getStr args "key"
  if key = "" then
    { result := none, error := some ⟨-32602, "key required"⟩, effects := [] }
  else
    match c.setSettingErr key with
    | some e => { result := none, error := some ⟨-32000, e⟩, effects := [.setSetting key] }
    | none =>
      { result := some (.text "Setting updated"), error := none, effects := [.setSetting key] }

def toolGetProject (c : Ctx) : ToolOut :=
  match c.project with
  | none => { result := none, error := some ⟨-32000, "No project loaded"⟩, effects := [.getProject] }
  | some project =>
    { result := some (.json (.obj
        [("name", .str project.name), ("appId", .str project.appId),
         ("webDir", .str project.webDir), ("hasAndroid", .bool project.hasAndroid),
         ("hasIOS", .bool project.hasIOS), ("rootDir", .str project.rootDir)]))
      error := none
      effects := [.getProject] }

/-- One entry of the `tools/list` catalog. -/
structure ToolInfo where
  name : String
  description : String
  inputSchema : Json
deriving Repr

/-- The empty-argument schema literal shared by several tools. -/
def emptySchema : Json :=
  .obj [("type", .str "object"), ("properties", .obj [])]

/-- The static catalog returned by `handleToolsList` of the plugin
server.  Note: no enablement flag is consulted anywhere here. -/
def handleToolsList : List ToolInfo :=
  [⟨"list_devices", "List all available devices, emulators, and simulators", emptySchema⟩,
   ⟨"run_on_device", "Run the app on a specific device",
     .obj [("type", .str "object"),
           ("properties", .obj
             [("deviceId", .obj [("type", .str "string"),
                                 ("description", .str "Device ID to run on")]),
              ("liveReload", .obj [("type", .str "boolean"),
                                   ("description", .str "Enable live reload")])]),
           ("required", .arr [.str "deviceId"])]⟩,
   ⟨"run_web", "Start the web development server", emptySchema⟩,
   ⟨"sync", "Sync web assets to native platforms",
     .obj [("type", .str "object"),
           ("properties", .obj
             [("platform", .obj [("type", .str "string"),
                                 ("description", .str "Platform to sync (ios, android, or empty for all)")])])]⟩,
   ⟨"build", "Build the web assets", emptySchema⟩,
   ⟨"open_ide", "Open the native project in IDE (Xcode or Android Studio)",
     .obj [("type", .str "object"),
           ("properties", .obj
             [("platform", .obj [("type", .str "string"),
                                 ("description", .str "Platform to open (ios or android)")])]),
           ("required", .arr [.str "platform"])]⟩,
   ⟨"get_processes", "Get list of running and completed processes", emptySchema⟩,
   ⟨"get_logs", "Get logs for a specific process",
     .obj [("type", .str "object"),
           ("properties", .obj
             [("processId", .obj [("type", .str "string"),
                                  ("description", .str "Process ID to get logs for")])]),
           ("required", .arr [.str "processId"])]⟩,
   ⟨"get_all_logs", "Get logs from processes with optional filtering. Use this to diagnose build errors, runtime issues, or understand what happened. Supports filtering by process type, status, and text search.",
     .obj [("type", .str "object"),
           ("properties", .obj
             [("type", .obj [("type", .str "string"),
                             ("description", .str "Filter by process type: build, sync, run, web, or a plugin name like firebase. Partial match supported.")]),
              ("status", .obj [("type", .str "string"),
                               ("enum", .arr [.str "running", .str "success", .str "failed", .str "canceled"]),
                               ("description", .str "Filter by process status")]),
              ("search", .obj [("type", .str "string"),
                               ("description", .str "Search for text pattern in logs (case-insensitive). Use to find specific errors or messages.")]),
              ("errors_only", .obj [("type", .str "boolean"),
                                    ("description", .str "Only return log lines containing error indicators (error, Error, ERROR, failed, Failed, FAILED, exception, panic, fatal)")]),
              ("tail", .obj [("type", .str "integer"),
                             ("description", .str "Number of lines to return per process (default: all lines). Use to limit output size.")])])]⟩,
   ⟨"kill_process", "Kill a running process",
     .obj [("type", .str "object"),
           ("properties", .obj
             [("processId", .obj [("type", .str "string"),
                                  ("description", .str "Process ID to kill")])]),
           ("required", .arr [.str "processId"])]⟩,
   ⟨"get_debug_actions", "Get list of available debug/cleanup actions", emptySchema⟩,
   ⟨"run_debug_action", "Run a debug/cleanup action",
     .obj [("type", .str "object"),
           ("properties", .obj
             [("actionId", .obj [("type", .str "string"),
                                 ("description", .str "Debug action ID to run")])]),
           ("required", .arr [.str "actionId"])]⟩,
   ⟨"get_settings", "Get current settings", emptySchema⟩,
   ⟨"set_setting", "Change a setting value",
     .obj [("type", .str "object"),
           ("properties", .obj
             [("key", .obj [("type", .str "string"),
                            ("description", .str "Setting key")]),
              ("value", .obj [("description", .str "New value for the setting")])]),
           ("required", .arr [.str "key", .str "value"])]⟩,
   ⟨"get_project", "Get project information", emptySchema⟩]

/-- The decoded `params` of a `tools/call` request. -/
structure ToolCall where
  name : String
  arguments : Args
deriving Repr, DecidableEq

/-- `handleToolsCall` of the plugin server: decode the params, dispatch
on the tool name.  No per-tool enablement check occurs. -/
def handleToolsCall (c : Ctx) (params : Parsed ToolCall) : ToolOut :=
  match params with
  | .malformed => { result := none, error := some ⟨-32602, "Invalid params"⟩, effects := [] }
  | .ok call =>
    match call.name with
    | "list_devices" => toolListDevices c
    | "run_on_device" => toolRunOnDevice c call.arguments
    | "run_web" => toolRunWeb c
    | "sync" => toolSync c call.arguments
    | "build" => toolBuild c
    | "open_ide" => toolOpenIDE c call.arguments
    | "get_processes" => toolGetProcesses c
    | "get_logs" => toolGetLogs c call.arguments
    | "get_all_logs" => toolGetAllLogs c call.arguments
    | "kill_process" => toolKillProcess c call.arguments
    | "get_debug_actions" => toolGetDebugActions c
    | "run_debug_action" => toolRunDebugAction c call.arguments
    | "get_settings" => toolGetSettings c
    | "set_setting" => toolSetSetting c call.arguments
    | "get_project" => toolGetProject c
    | other => { result := none, error := some ⟨-32601, "Unknown tool: " ++ other⟩, effects := [] }

/-- A decoded MCP request (`id` is an opaque identifier echoed back,
modelled as an integer; `params` is decoded lazily by `tools/call`). -/
structure MCPRequest where
  id : Option Int
  method : String
  params : Parsed ToolCall
deriving Repr

/-- The `result` payload of a response. -/
inductive RespResult
  | initializeResult (protocolVersion serverName serverVersion : String)
  | toolsList (tools : List ToolInfo)
  | toolResult (r : ToolResult)
deriving Repr

structure MCPResponse where
  id : Option Int
  result : Option RespResult
  error : Option MCPError
deriving Repr

def PluginVersion : String := "1.0.0"

def handleInitialize : RespResult :=
  .initializeResult "2024-11-05" "lazycap" PluginVersion

/-- `handleRequest` of the plugin server: one inbound line to one
response (plus the capability calls performed).  A line that fails to
unmarshal yields the parse-error response; an unrecognised method yields
the method-not-found response.  The function is total: no input crashes
the handler. -/
def handleRequest (c : Ctx) (line : Parsed MCPRequest) : MCPResponse × List Effect :=
  match line with
  | .malformed => ({ id := none, result := none, error := some ⟨-32700, "Parse error"⟩ }, [])
  | .ok req =>
    match req.method with
    | "initialize" =>
      ({ id := req.id, result := some handleInitialize, error := none }, [])
    | "tools/list" =>
      ({ id := req.id, result := some (.toolsList handleToolsList), error := none }, [])
    | "tools/call" =>
      let out := handleToolsCall c req.params
      ({ id := req.id, result := out.result.map .toolResult, error := out.error }, out.effects)
    | _ =>
      ({ id := req.id, result := none, error := some ⟨-32601, "Method not found"⟩ }, [])

/-- `handleConnection`: the scanner loop of one connection/stream — each
line is answered in order and the loop continues to the next line no
matter what the previous line contained. -/
def handleConnection (c : Ctx) : List (Parsed MCPRequest) → List MCPResponse
  | [] => []
  | line :: rest => (handleRequest c line).1 :: handleConnection c rest

end MCPServer

/-! ## The standalone MCP server (`src/cmd/lazycap/root.go`, `lazycap mcp`)

This second server runs over stdio without the TUI.  Unlike the plugin
server above, its `handleToolsList` filters the catalog through
`Settings.IsMCPToolEnabled` and its `handleToolsCall` refuses disabled
tools before dispatching. -/

namespace Standalone

open MCPServer in
/-- The `cap`/`debug` package boundary of the standalone server: project
discovery results, loaded settings, and the outcomes of the external
commands. -/
structure McpCtx where
  projects : List Project
  settings : Settings
  listDevicesRes : Except String (List Device)
  runAtErr : String → String → String → Bool → Option String
  syncAtErr : String → String → Option String
  buildAtErr : String → Option String
  openAtErr : String → String → Option String
  debugActions : List DebugAction
  runActionSuccess : String → Bool
  runActionMessage : String → String

/-- An external command run by the standalone server. -/
inductive CapEffect
  | listDevices
  | runAt (rootDir deviceId platform : String) (liveReload : Bool)
  | syncAt (rootDir platform : String)
  | buildAt (rootDir : String)
  | openAt (rootDir platform : String)
  | getDebugActions
  | runDebugAction (actionId : String)
deriving Repr, DecidableEq

/-- `mcpContext.getProject`: resolve a project by name, by root
directory, or by trailing path component; default to the first
discovered project when no name is given. -/
def getProject (c : McpCtx) (nameOrPath : String) : Option MCPServer.Project :=
  if c.projects.isEmpty then
    none
  else if nameOrPath = "" then
    c.projects.head?
  else
    c.projects.find? (fun p =>
      p.name = nameOrPath ∨ p.rootDir = nameOrPath ∨
      p.rootDir.endsWith ("/" ++ nameOrPath) ∨ p.rootDir.endsWith ("\\" ++ nameOrPath))

/-- The schema property advertising the optional `project` argument. -/
def projectProp : String × MCPServer.Json :=
  ("project", .obj [("type", .str "string"),
    ("description", .str "Project name or path (from list_projects). Optional if only one project exists.")])

/-- `allTools` of the standalone `handleToolsList`. -/
def allTools : List MCPServer.ToolInfo :=
  [⟨"list_projects", "List all discovered Capacitor projects in the current directory and subdirectories",
     MCPServer.emptySchema⟩,
   ⟨"list_devices", "List all available devices, emulators, and simulators for running the app",
     MCPServer.emptySchema⟩,
   ⟨"run_on_device", "Run the Capacitor app on a specific device or emulator",
     .obj [("type", .str "object"),
           ("properties", .obj
             [projectProp,
              ("deviceId", .obj [("type", .str "string"),
                                 ("description", .str "Device ID to run on (get from list_devices)")]),
              ("platform", .obj [("type", .str "string"),
                                 ("description", .str "Platform: ios, android, or web")]),
              ("liveReload", .obj [("type", .str "boolean"),
                                   ("description", .str "Enable live reload for development")])]),
           ("required", .arr [.str "deviceId", .str "platform"])]⟩,
   ⟨"sync", "Sync web assets to native iOS/Android projects",
     .obj [("type", .str "object"),
           ("properties", .obj
             [projectProp,
              ("platform", .obj [("type", .str "string"),
                                 ("description", .str "Platform to sync: ios, android, or empty for all")])])]⟩,
   ⟨"build", "Build the web assets (npm run build)",
     .obj [("type", .str "object"), ("properties", .obj [projectProp])]⟩,
   ⟨"open_ide", "Open the native project in Xcode (iOS) or Android Studio (Android)",
     .obj [("type", .str "object"),
           ("properties", .obj
             [projectProp,
              ("platform", .obj [("type", .str "string"),
                                 ("description", .str "Platform: ios or android")])]),
           ("required", .arr [.str "platform"])]⟩,
   ⟨"get_project", "Get information about a Capacitor project",
     .obj [("type", .str "object"), ("properties", .obj [projectProp])]⟩,
   ⟨"get_debug_actions", "List available debug and cleanup actions",
     MCPServer.emptySchema⟩,
   ⟨"run_debug_action", "Run a debug or cleanup action (like clearing caches, killing processes)",
     .obj [("type", .str "object"),
           ("properties", .obj
             [("actionId", .obj [("type", .str "string"),
                                 ("description", .str "Action ID from get_debug_actions")])]),
           ("required", .arr [.str "actionId"])]⟩]

/-- Standalone `handleToolsList`: the static catalog filtered through
the per-tool enablement flags of the persisted settings. -/
def handleToolsList (c : McpCtx) : List MCPServer.ToolInfo :=
  allTools.filter (fun tool => c.settings.IsMCPToolEnabled tool.name)

/-- The `(interface{}, *mcpError)` pair of one standalone tool call plus
the external commands it ran. -/
structure Out where
  result : Option MCPServer.ToolResult
  error : Option MCPServer.MCPError
  effects : List CapEffect
deriving Repr

open MCPServer in
/-- Standalone `handleToolsCall`: decode params, refuse disabled tools,
then dispatch. -/
def handleToolsCall (c : McpCtx) (params : Parsed ToolCall) : Out :=
  match params with
  | .malformed => { result := none, error := some ⟨-32602, "Invalid params"⟩, effects := [] }
  | .ok call =>
    if ¬c.settings.IsMCPToolEnabled call.name then
      { result := none
        error := some ⟨-32601, "Tool \x27" ++ call.name ++ "\x27 is disabled. Enable it in lazycap settings."⟩
        effects := [] }
    else
      match call.name with
      | "list_projects" =>
        if c.projects.isEmpty then
          { result := some (.text "No Capacitor projects found. Make sure you\x27re in or near a Capacitor project directory.")
            error := none, effects := [] }
        else
          { result := some (.json (.arr (c.projects.map (fun p =>
              .obj [("name", .str p.name), ("appId", .str p.appId),
                    ("rootDir", .str p.rootDir), ("hasIOS", .bool p.hasIOS),
                    ("hasAndroid", .bool p.hasAndroid)]))))
            error := none, effects := [] }
      | "list_devices" =>
        match c.listDevicesRes with
        | .error e => { result := none, error := some ⟨-32000, e⟩, effects := [.listDevices] }
        | .ok devices =>
          { result := some (.json (.arr (devices.map (fun d =>
              .obj [("id", .str d.id), ("name", .str d.name),
                    ("platform", .str d.platform), ("online", .bool d.online),
                    ("isEmulator", .bool d.isEmulator)]))))
            error := none, effects := [.listDevices] }
      | "run_on_device" =>
        let projectName := getStr call.arguments "project"
        let deviceID := getStr call.arguments "deviceId"
        let platform := getStr call.arguments "platform"
        let liveReload := getBool call.arguments "liveReload"
        if deviceID = "" ∨ platform = "" then
          { result := none, error := some ⟨-32602, "deviceId and platform required"⟩, effects := [] }
        else
          match getProject c projectName with
          | none =>
            { result := none
              error := some ⟨-32000, "No Capacitor project found. Use list_projects to see available projects."⟩
              effects := [] }
          | some project =>
            match c.runAtErr project.rootDir deviceID platform liveReload with
            | some e =>
              { result := none, error := some ⟨-32000, e⟩
                effects := [.runAt project.rootDir deviceID platform liveReload] }
            | none =>
              { result := some (.text ("Started app \x27" ++ project.name ++ "\x27 on device " ++ deviceID))
                error := none
                effects := [.runAt project.rootDir deviceID platform liveReload] }
      | "sync" =>
        let projectName := getStr call.arguments "project"
        let platform := getStr call.arguments "platform"
        match getProject c projectName with
        | none =>
          { result := none
            error := some ⟨-32000, "No Capacitor project found. Use list_projects to see available projects."⟩
            effects := [] }
        | some project =>
          match c.syncAtErr project.rootDir platform with
          | some e =>
            { result := none, error := some ⟨-32000, e⟩
              effects := [.syncAt project.rootDir platform] }
          | none =>
            let msg := if platform ≠ "" then
                "Sync completed for \x27" ++ project.name ++ "\x27 (" ++ platform ++ ")"
              else
                "Sync completed for \x27" ++ project.name ++ "\x27"
            { result := some (.text msg), error := none
              effects := [.syncAt project.rootDir platform] }
      | "build" =>
        let projectName := getStr call.arguments "project"
        match getProject c projectName with
        | none =>
          { result := none
            error := some ⟨-32000, "No Capacitor project found. Use list_projects to see available projects."⟩
            effects := [] }
        | some project =>
          match c.buildAtErr project.rootDir with
          | some e =>
            { result := none, error := some ⟨-32000, e⟩, effects := [.buildAt project.rootDir] }
          | none =>
            { result := some (.text ("Build completed for \x27" ++ project.name ++ "\x27"))
              error := none, effects := [.buildAt project.rootDir] }
      | "open_ide" =>
        let projectName := getStr call.arguments "project"
        let platform := getStr call.arguments "platform"
        if platform = "" then
          { result := none, error := some ⟨-32602, "platform required"⟩, effects := [] }
        else
          match getProject c projectName with
          | none =>
            { result := none
              error := some ⟨-32000, "No Capacitor project found. Use list_projects to see available projects."⟩
              effects := [] }
          | some project =>
            match c.openAtErr project.rootDir platform with
            | some e =>
              { result := none, error := some ⟨-32000, e⟩
                effects := [.openAt project.rootDir platform] }
            | none =>
              { result := some (.text ("Opened " ++ platform ++ " IDE for \x27" ++ project.name ++ "\x27"))
                error := none, effects := [.openAt project.rootDir platform] }
      | "get_project" =>
        let projectName := getStr call.arguments "project"
        match getProject c projectName with
        | none =>
          { result := none
            error := some ⟨-32000, "No Capacitor project found. Use list_projects to see available projects."⟩
            effects := [] }
        | some project =>
          { result := some (.json (.obj
              [("name", .str project.name), ("appId", .str project.appId),
               ("rootDir", .str project.rootDir), ("webDir", .str project.webDir),
               ("hasIOS", .bool project.hasIOS), ("hasAndroid", .bool project.hasAndroid)]))
            error := none, effects := [] }
      | "get_debug_actions" =>
        { result := some (.json (.arr (c.debugActions.map (fun a =>
            .obj [("id", .str a.id), ("name", .str a.name),
                  ("description", .str a.description), ("category", .str a.category),
                  ("dangerous", .bool a.dangerous)]))))
          error := none, effects := [.getDebugActions] }
      | "run_debug_action" =>
        let actionID := getStr call.arguments "actionId"
        if actionID = "" then
          { result := none, error := some ⟨-32602, "actionId required"⟩, effects := [] }
        else
          if ¬c.runActionSuccess actionID then
            { result := none, error := some ⟨-32000, c.runActionMessage actionID⟩
              effects := [.runDebugAction actionID] }
          else
            { result := some (.text (c.runActionMessage actionID)), error := none
              effects := [.runDebugAction actionID] }
      | other =>
        { result := none, error := some ⟨-32601, "Unknown tool: " ++ other⟩, effects := [] }

/-- The `result` payload of a standalone response. -/
inductive RespResult
  | initializeResult (protocolVersion serverName : String)
  | initializedAck
  | toolsList (tools : List MCPServer.ToolInfo)
  | toolResult (r : MCPServer.ToolResult)
deriving Repr

structure McpResponse where
  id : Option Int
  result : Option RespResult
  error : Option MCPServer.MCPError
deriving Repr

open MCPServer in
/-- Standalone `handleMCPRequest`: one stdin line to one response. -/
def handleMCPRequest (c : McpCtx) (line : Parsed MCPRequest) :
    McpResponse × List CapEffect :=
  match line with
  | .malformed => ({ id := none, result := none, error := some ⟨-32700, "Parse error"⟩ }, [])
  | .ok req =>
    match req.method with
    | "initialize" =>
      ({ id := req.id, result := some (.initializeResult "2024-11-05" "lazycap"), error := none }, [])
    | "notifications/initialized" =>
      ({ id := req.id, result := some .initializedAck, error := none }, [])
    | "tools/list" =>
      ({ id := req.id, result := some (.toolsList (handleToolsList c)), error := none }, [])
    | "tools/call" =>
      let out := handleToolsCall c req.params
      ({ id := req.id, result := out.result.map .toolResult, error := out.error }, out.effects)
    | other =>
      ({ id := req.id, result := none, error := some ⟨-32601, "Method not found: " ++ other⟩ }, [])

end Standalone

/-! ## The Event Bus (`src/internal/plugin/manager.go`, `EventBus`)

Handlers are identified by numbers.  `Subscribe` appends a slot and
captures its index; the unsubscribe capability tombstones that slot to
`nil` (`none`); `Emit` invokes every non-tombstoned slot in order.  The
`go handler(data)` dispatch is fire-and-forget; what the embedding
records is which handlers are invoked. -/

namespace Bus

/-- One handler invocation performed by an `Emit`: the event kind, the
subscription slot, and the handler id held by that slot. -/
structure Invocation where
  event : String
  index : Nat
  handler : Nat
deriving Repr, DecidableEq

/-- The subscriber table `map[EventType][]EventHandler`, with `none`
standing for a tombstoned (`nil`) slot. -/
structure EventBus where
  subscribers : List (String × List (Option Nat))
deriving Repr, DecidableEq

/-- `eb.subscribers[event]` with the zero value (empty slice). -/
def slots (eb : EventBus) (event : String) : List (Option Nat) :=
  (eb.subscribers.lookup event).getD []

def setSlots (eb : EventBus) (event : String) (l : List (Option Nat)) : EventBus :=
  ⟨setAssoc eb.subscribers event l⟩

/-- `EventBus.Subscribe`: append the handler and return the index the
unsubscribe capability captured. -/
def subscribe (eb : EventBus) (event : String) (handler : Nat) : EventBus × Nat :=
  let l := slots eb event ++ [some handler]
  (setSlots eb event l, l.length - 1)

/-- Running the unsubscribe function returned by `Subscribe`: tombstone
the captured slot (guarded by the captured index being in range). -/
def unsubscribe (eb : EventBus) (event : String) (index : Nat) : EventBus :=
  let l := slots eb event
  if index < l.length then setSlots eb event (l.set index none) else eb

/-- The in-order invocations `Emit` dispatches over a slot slice,
numbering slots from `k`. -/
def invocationsOf (event : String) : List (Option Nat) → Nat → List Invocation
  | [], _ => []
  | none :: rest, k => invocationsOf event rest (k + 1)
  | some h :: rest, k => ⟨event, k, h⟩ :: invocationsOf event rest (k + 1)

/-- `EventBus.Emit`: dispatch to all currently non-tombstoned slots of
the kind.  The bus state itself is unchanged. -/
def emit (eb : EventBus) (event : String) : List Invocation :=
  invocationsOf event (slots eb event) 0

/-- The operations that can hit the bus after some point in time. -/
inductive BusOp
  | subscribeOp (event : String) (handler : Nat)
  | unsubscribeOp (event : String) (index : Nat)
  | emitOp (event : String)
deriving Repr, DecidableEq

def step (eb : EventBus) : BusOp → EventBus × List Invocation
  | .subscribeOp e h => ((subscribe eb e h).1, [])
  | .unsubscribeOp e i => (unsubscribe eb e i, [])
  | .emitOp e => (eb, emit eb e)

/-- Run a sequence of bus operations, collecting every invocation. -/
def runOps (eb : EventBus) : List BusOp → EventBus × List Invocation
  | [] => (eb, [])
  | op :: ops =>
    let s1 := step eb op
    let s2 := runOps s1.1 ops
    (s2.1, s1.2 ++ s2.2)

end Bus

/-! ## Plugin registry, lifecycle manager (`src/internal/plugin/manager.go`)

A registered plugin is modelled by its observable lifecycle state plus
the outcomes its `Init`/`Start`/`Stop` hooks would return, which is the
common behaviour of the two built-in plugins (see the `Plugins` section
below): `Start` on a running plugin and `Stop` on a stopped plugin are
nil no-ops, a failed `Start` leaves the plugin not running, a failed
`Stop` leaves it running. -/

namespace PluginMgr

structure PluginObj where
  id : String
  running : Bool
  inited : Bool
  initErr : Option String
  startErr : Option String
  stopErr : Option String
deriving Repr, DecidableEq

def pluginInit (p : PluginObj) : PluginObj × Option String :=
  match p.initErr with
  | some e => (p, some e)
  | none => ({ p with inited := true }, none)

def pluginStart (p : PluginObj) : PluginObj × Option String :=
  if p.running then (p, none)
  else
    match p.startErr with
    | some e => (p, some e)
    | none => ({ p with running := true }, none)

def pluginStop (p : PluginObj) : PluginObj × Option String :=
  if ¬p.running then (p, none)
  else
    match p.stopErr with
    | some e => (p, some e)
    | none => ({ p with running := false }, none)

/-- The durable `plugins.json` contents written by `SaveConfig`. -/
structure SavedConfig where
  enabled : List (String × Bool)
  running : List (String × Bool)
deriving Repr, DecidableEq

/-- The `Manager` plus the global registry (`plugin.All()`, in
registration order) and the persisted store. -/
structure Manager where
  plugins : List PluginObj
  enabled : List (String × Bool)
  running : List (String × Bool)
  started : Bool
  saved : SavedConfig
deriving Repr, DecidableEq

/-- Go map read `m[k]` with the `bool` zero value. -/
def lookupFalse (m : List (String × Bool)) (k : String) : Bool :=
  (m.lookup k).getD false

/-- `Manager.IsEnabled`: default to enabled for plugins with no entry. -/
def Manager.IsEnabled (m : Manager) (pluginID : String) : Bool :=
  match m.enabled.lookup pluginID with
  | none => true
  | some b => b

/-- `Manager.SaveConfig`: flush the in-memory maps to durable storage. -/
def saveConfig (m : Manager) : Manager :=
  { m with saved := ⟨m.enabled, m.running⟩ }

/-- Replace the registry entry of `pluginID` (Go mutates the plugin
object through its pointer). -/
def updatePlugin (m : Manager) (pluginID : String) (p : PluginObj) : Manager :=
  { m with plugins := m.plugins.map (fun q => if q.id = pluginID then p else q) }

/-- `Manager.SetEnabled`: record the flag, then on a disabled→enabled
transition while the session is active run `Init` then `Start`; on an
enabled→disabled transition of a running plugin run `Stop`; finally
`SaveConfig` — but only when no hook failed (error paths return before
the flush). -/
def Manager.SetEnabled (m : Manager) (pluginID : String) (enabled : Bool) :
    Manager × Option String :=
  let wasEnabled := lookupFalse m.enabled pluginID
  let m := { m with enabled := setAssoc m.enabled pluginID enabled }
  match m.plugins.find? (fun p => p.id = pluginID) with
  | none => (m, some ("plugin " ++ pluginID ++ " not found"))
  | some p =>
    if enabled && !wasEnabled && m.started then
      let r1 := pluginInit p
      match r1.2 with
      | some e =>
        (updatePlugin m pluginID r1.1, some ("failed to init plugin " ++ pluginID ++ ": " ++ e))
      | none =>
        let r2 := pluginStart r1.1
        match r2.2 with
        | some e =>
          (updatePlugin m pluginID r2.1, some ("failed to start plugin " ++ pluginID ++ ": " ++ e))
        | none => (saveConfig (updatePlugin m pluginID r2.1), none)
    else if !enabled && wasEnabled && p.running then
      let r1 := pluginStop p
      match r1.2 with
      | some e =>
        (updatePlugin m pluginID r1.1, some ("failed to stop plugin " ++ pluginID ++ ": " ++ e))
      | none => (saveConfig (updatePlugin m pluginID r1.1), none)
    else
      (saveConfig m, none)

/-- `Manager.WasRunning`: the persisted auto-start flag. -/
def Manager.WasRunning (m : Manager) (pluginID : String) : Bool :=
  lookupFalse m.running pluginID

/-- `Manager.SetRunning`: record the flag and flush. -/
def Manager.SetRunning (m : Manager) (pluginID : String) (running : Bool) : Manager :=
  saveConfig { m with running := setAssoc m.running pluginID running }

/-- The loop body of `Manager.StopAll`: stop each running plugin,
remembering the last stop error. -/
def stopAllAux : List PluginObj → Option String → List PluginObj × Option String
  | [], lastErr => ([], lastErr)
  | p :: rest, lastErr =>
    if p.running then
      let r := pluginStop p
      let newLast := match r.2 with | some e => some e | none => lastErr
      let tail := stopAllAux rest newLast
      (r.1 :: tail.1, tail.2)
    else
      let tail := stopAllAux rest lastErr
      (p :: tail.1, tail.2)

/-- `Manager.StopAll`: emit `EventAppStopping` (event dispatch not
modelled here), clear `started`, stop every running plugin, return the
last error.  It does not touch the running-flag map. -/
def Manager.StopAll (m : Manager) : Manager × Option String :=
  let m1 := { m with started := false }
  let r := stopAllAux m1.plugins none
  ({ m1 with plugins := r.1 }, r.2)

/-- The plugin half of `Model.gracefulShutdown`: snapshot every
registered plugin's live running state into the persisted flag (each
`SetRunning` flushes), then `StopAll`.  (The process-kill loop of
`gracefulShutdown` acts on the UI process table, modelled in the `UI`
section.) -/
def snapshotAux (m : Manager) : List PluginObj → Manager
  | [] => m
  | p :: rest => snapshotAux (m.SetRunning p.id p.running) rest

def gracefulShutdownPlugins (m : Manager) : Manager × Option String :=
  (snapshotAux m m.plugins).StopAll

/-- The `e` (toggle enabled) handler of the plugins pane
(`src/internal/ui/model.go`): flip the enabled flag via `SetEnabled`;
on success of a disable, additionally clear the persisted running
state via `SetRunning(id, false)`. -/
def togglePluginEnabled (m : Manager) (pluginID : String) : Manager × Option String :=
  let enabled := m.IsEnabled pluginID
  let r := m.SetEnabled pluginID (!enabled)
  match r.2 with
  | some e => (r.1, some e)
  | none => if enabled then (r.1.SetRunning pluginID false, none) else (r.1, none)

end PluginMgr

/-! ## The built-in plugins' `Start` hooks

`MCPPlugin.Start` (`src/internal/plugins/mcp/mcp.go`) and
`FirebasePlugin.Start` (`src/unnamed/part_001`), each a state
transformer over the plugin's own fields with the OS-level outcomes
(`net.Listen`, `exec.LookPath`, the emulator launch) as parameters. -/

namespace Plugins

structure MCPState where
  running : Bool
  mode : String
  port : Int
  listenerOpen : Bool
  stopChGen : Nat
deriving Repr, DecidableEq

/-- `MCPPlugin.Start`: return nil immediately when already running;
otherwise mark running, allocate a fresh stop channel, and launch the
stdio loop or the TCP listener (rolling `running` back if `net.Listen`
fails). -/
def mcpStart (p : MCPState) (listenErr : Option String) : MCPState × Option String :=
  if p.running then (p, none)
  else
    let p1 := { p with running := true, stopChGen := p.stopChGen + 1 }
    if p1.mode = "stdio" then (p1, none)
    else
      match listenErr with
      | some e => ({ p1 with running := false }, some ("failed to start MCP server: " ++ e))
      | none => ({ p1 with listenerOpen := true }, none)

/-- `MCPPlugin.Stop`: nil no-op when not running; otherwise clear the
flag, signal the stop channel, close the listener. -/
def mcpStop (p : MCPState) : MCPState × Option String :=
  if ¬p.running then (p, none)
  else ({ p with running := false, listenerOpen := false }, none)

structure FirebaseState where
  running : Bool
  hasCtx : Bool
  lastError : String
  stopChGen : Nat
deriving Repr, DecidableEq

/-- The environment `FirebasePlugin.Start` probes: whether the firebase
CLI resolves, which emulators are enabled, and whether the launch
succeeds. -/
structure FirebaseEnv where
  cliFound : Bool
  enabledEmulators : List String
  startEmulatorsErr : Option String

/-- `FirebasePlugin.Start`: return nil immediately when already running;
fail without side effects when uninitialized; otherwise clear the last
error, check the CLI and the enabled-emulator list, then launch. -/
def firebaseStart (p : FirebaseState) (env : FirebaseEnv) : FirebaseState × Option String :=
  if p.running then (p, none)
  else if ¬p.hasCtx then (p, some "plugin not initialized - call Init() first")
  else
    let p1 := { p with lastError := "" }
    if ¬env.cliFound then
      ({ p1 with lastError := "firebase CLI not found" },
       some "firebase CLI not installed. Install with: npm install -g firebase-tools")
    else if env.enabledEmulators.isEmpty then
      ({ p1 with lastError := "no emulators enabled" },
       some "no emulators enabled. Enable emulators in plugin settings")
    else
      let p2 := { p1 with running := true, stopChGen := p1.stopChGen + 1 }
      match env.startEmulatorsErr with
      | some e => ({ p2 with running := false, lastError := e }, some e)
      | none => (p2, none)

end Plugins

/-! ## The process orchestrator of the UI model (`src/internal/ui/model.go`)

The bubbletea `Update` loop is sequential: each message mutates the
model in turn.  `uiStep` embeds the process-related `Update` branches
and the `Kill` key handler; `killProcessCB` embeds the capability-set
`KillProcess` callback of `NewModelWithPlugins`; `createProcess` and
`runCmdWithPipes` embed process creation and command launch, with the
OS pipe/start outcomes as an explicit parameter.  `time.Now()` is the
`now` parameter, rendered timestamps are its decimal text, and the
ANSI-stripping regex is the `strip` parameter. -/

namespace UI

inductive ProcessStatus
  | running
  | success
  | failed
  | cancelled
deriving Repr, DecidableEq

/-- Modelled from the spec: the `Process` record itself is declared in a
UI source file absent from `src/` (only its uses appear in `model.go`).
Its fields follow the spec data model and the `model.go` call sites:
identifier, display name, command line, lifecycle status, start/end
time, accumulated output lines, and ownership of the OS handle
(`Cmd != nil && Cmd.Process != nil`, modelled as `hasCmd`). -/
structure Proc where
  id : String
  name : String
  command : String
  status : ProcessStatus
  startTime : Nat
  endTime : Option Nat
  logs : List String
  hasCmd : Bool
deriving Repr, DecidableEq

/-- Modelled from the spec: `Process.AddLog` is defined in the same
absent UI file; per the spec a bounded number of most-recent lines are
retained per process — append, then drop from the front beyond the
configured cap. -/
def addLog (maxLines : Nat) (p : Proc) (line : String) : Proc :=
  let l := p.logs ++ [line]
  { p with logs := l.drop (l.length - maxLines) }

structure UIModel where
  processes : List Proc
  nextProcessID : Nat
  selectedProcess : Nat
  outputChans : List String
  maxLogLines : Nat
deriving Repr, DecidableEq

/-- `Model.createProcess`: allocate the next identifier, append a new
`Running` record whose first log line echoes the command, select it. -/
def createProcess (m : UIModel) (name command : String) (now : Nat) : UIModel × Proc :=
  let id := "p" ++ toString m.nextProcessID
  let p : Proc :=
    { id := id, name := name, command := command, status := .running,
      startTime := now, endTime := none,
      logs := ["[" ++ toString now ++ "] $ " ++ command], hasCmd := false }
  ({ m with nextProcessID := m.nextProcessID + 1,
            processes := m.processes ++ [p],
            selectedProcess := m.processes.length }, p)

/-- The outcome of asking the OS for the two pipes and starting the
command. -/
inductive StartOutcome
  | stdoutPipeErr (e : String)
  | stderrPipeErr (e : String)
  | startErr (e : String)
  | started
deriving Repr, DecidableEq

/-- The error a failed launch carries, if any. -/
def StartOutcome.errOf : StartOutcome → Option String
  | .stdoutPipeErr e => some e
  | .stderrPipeErr e => some e
  | .startErr e => some e
  | .started => none

/-- The messages the process-related `Update` branches consume, plus the
`Kill` key. -/
inductive Msg
  | processStarted (processID : String)
  | processOutput (processID line : String)
  | processFinished (processID : String) (err : Option String)
  | pluginLog (pluginID message ts : String)
  | killKey
deriving Repr, DecidableEq

/-- Whether a message is a plugin log line (the one message kind whose
handler may rewrite a terminal status). -/
def Msg.isPluginLog : Msg → Bool
  | .pluginLog _ _ _ => true
  | _ => false

/-- `runCmdWithPipes`: a pipe or start failure closes the channel and
reports a `processFinishedMsg` carrying the error; success reports
`processStartedMsg`.  Note no path refuses to deliver a message: the
failure becomes a completion message for the already-created record. -/
def runCmdWithPipes (processID : String) (outcome : StartOutcome) : Msg :=
  match outcome with
  | .stdoutPipeErr e => .processFinished processID (some e)
  | .stderrPipeErr e => .processFinished processID (some e)
  | .startErr e => .processFinished processID (some e)
  | .started => .processStarted processID

/-- An OS-level action the handlers perform. -/
inductive OSEffect
  | kill (processID : String)
deriving Repr, DecidableEq

/-- `for _, p := range ...; if c(p) { p = f(p); break }`. -/
def updateFirst {α : Type} (c : α → Bool) (f : α → α) : List α → List α
  | [] => []
  | a :: l => if c a then f a :: l else a :: updateFirst c f l

/-- In-place update at an index (Go mutation through the found slot). -/
def modifyAt {α : Type} (f : α → α) : List α → Nat → List α
  | [], _ => []
  | a :: l, 0 => f a :: l
  | a :: l, n + 1 => a :: modifyAt f l n

/-- The `processStartedMsg` branch: attach the OS handle and register
the output channel on the record with the matching identifier. -/
def handleProcessStarted (m : UIModel) (pid : String) : UIModel :=
  if m.processes.any (fun p => p.id == pid) then
    let procs := updateFirst (fun p => p.id == pid) (fun p => { p with hasCmd := true }) m.processes
    let chans := if m.outputChans.contains pid then m.outputChans else m.outputChans ++ [pid]
    { m with processes := procs, outputChans := chans }
  else m

/-- The `processOutputMsg` branch: normalize the line (strip escape
sequences, trim) and append it to the matching record when non-empty. -/
def handleProcessOutput (strip : String → String) (m : UIModel) (pid line : String) : UIModel :=
  let procs :=
    updateFirst (fun p => p.id == pid && line ≠ "")
      (fun p =>
        let clean := (strip line).trim
        if clean ≠ "" then addLog m.maxLogLines p clean else p)
      m.processes
  { m with processes := procs }

/-- The `processFinishedMsg` branch: on the first record with the
matching identifier that is still `Running`, set the terminal status
(`Failed` plus an error log line, or `Succeeded` plus a done marker)
and the end time; drop the output channel. -/
def handleProcessFinished (m : UIModel) (now : Nat) (pid : String) (err : Option String) :
    UIModel :=
  let procs :=
    updateFirst (fun p => p.id == pid && p.status == ProcessStatus.running)
      (fun p =>
        let p1 := match err with
          | some e => addLog m.maxLogLines { p with status := .failed } ("Error: " ++ e)
          | none => addLog m.maxLogLines { p with status := .success } "✓ Done"
        { p1 with endTime := some now })
      m.processes
  { m with processes := procs, outputChans := m.outputChans.filter (fun q => q ≠ pid) }

/-- `Model.getSelectedProcess`. -/
def getSelectedProcess (m : UIModel) : Option Proc :=
  if m.processes.length = 0 ∨ m.processes.length ≤ m.selectedProcess then none
  else m.processes.get? m.selectedProcess

/-- The `Kill` key handler: if the selected record is `Running` with a
live OS handle, kill the OS process, mark the record `Cancelled` with an
end time and a synthetic log line.  Otherwise nothing happens. -/
def handleKillKey (m : UIModel) (now : Nat) : UIModel × List OSEffect :=
  match getSelectedProcess m with
  | none => (m, [])
  | some p =>
    if p.status == ProcessStatus.running && p.hasCmd then
      let p1 := addLog m.maxLogLines { p with status := .cancelled, endTime := some now }
        "Killed by user"
      ({ m with processes := m.processes.set m.selectedProcess p1 }, [.kill p.id])
    else (m, [])

/-- The capability-set `KillProcess` callback (`NewModelWithPlugins`):
kill the OS process of the first record that matches the identifier and
is `Running` with a live handle, returning nil; otherwise return the
"not found or not running" error.  The process table itself is not
mutated. -/
def killProcessCB (m : UIModel) (processID : String) : Option String × List OSEffect :=
  match m.processes.find?
      (fun p => p.id == processID && p.status == ProcessStatus.running && p.hasCmd) with
  | some p => (none, [.kill p.id])
  | none => (some ("process " ++ processID ++ " not found or not running"), [])

/-- `strings.ToUpper` on the first byte of the plugin name. -/
def capitalizeFirst (s : String) : String :=
  match s.data with
  | [] => s
  | c :: rest => String.mk (c.toUpper :: rest)

/-- The per-message mutation the `pluginLogMsg` branch applies to the
plugin's tab: append the timestamped line, mark the tab `Succeeded` on a
stopped/shutdown message, mark it `Failed` on an error message. -/
def pluginTabApply (maxLines now : Nat) (message ts : String) (p : Proc) : Proc :=
  let p1 := addLog maxLines p ("[" ++ ts ++ "] " ++ message)
  let lowerMsg := MCPServer.toLowerStr message
  let p2 :=
    if MCPServer.strContains lowerMsg "stopped" || MCPServer.strContains lowerMsg "shutdown" then
      { p1 with status := .success, endTime := some now }
    else p1
  if MCPServer.strStartsWith message "ERROR:" || MCPServer.strContains lowerMsg "error:" then
    { p2 with status := .failed }
  else p2

/-- The `pluginLogMsg` branch: find or create the `plugin-<id>` tab,
then apply `pluginTabApply` to it. -/
def handlePluginLog (m : UIModel) (now : Nat) (pluginID message ts : String) : UIModel :=
  let tabId := "plugin-" ++ pluginID
  match m.processes.findIdx? (fun p => p.id == tabId) with
  | some i =>
    { m with processes := modifyAt (pluginTabApply m.maxLogLines now message ts) m.processes i }
  | none =>
    let newTab : Proc :=
      { id := tabId, name := capitalizeFirst pluginID, command := "plugin:" ++ pluginID,
        status := .running, startTime := now, endTime := none, logs := [], hasCmd := false }
    { m with processes := m.processes ++ [pluginTabApply m.maxLogLines now message ts newTab] }

/-- One turn of the sequential `Update` loop on a process-related
message. -/
def uiStep (strip : String → String) (m : UIModel) (now : Nat) : Msg → UIModel × List OSEffect
  | .processStarted pid => (handleProcessStarted m pid, [])
  | .processOutput pid line => (handleProcessOutput strip m pid line, [])
  | .processFinished pid err => (handleProcessFinished m now pid err, [])
  | .pluginLog pluginID message ts => (handlePluginLog m now pluginID message ts, [])
  | .killKey => handleKillKey m now

/-- One attempt to start an external command: `createProcess` (run
synchronously by the key/action handler) followed by the delivery of the
message `runCmdWithPipes` produced for the given OS outcome. -/
def startAttempt (strip : String → String) (m : UIModel) (name command : String) (now : Nat)
    (outcome : StartOutcome) : UIModel × List OSEffect :=
  let r := createProcess m name command now
  uiStep strip r.1 now (runCmdWithPipes r.2.id outcome)

end UI

/-! ## Concrete scenario fixtures -/

/-- A plugin-server context with no devices, no processes and no failing
operations. -/
def trivialCtx : MCPServer.Ctx :=
  { devices := [], runOnDeviceErr := fun _ _ => none, runWebErr := none,
    syncErr := fun _ => none, buildErr := none, openIDEErr := fun _ => none,
    processes := [], processLogs := fun _ => [], allLogs := [],
    killProcessErr := fun _ => none, debugActions := [],
    runDebugActionResult := fun _ => .obj [], settingsData := .obj [],
    setSettingErr := fun _ => none, project := none }

/-- A standalone-server context whose persisted settings disable the
`build` tool (master flag on, explicit `false` entry). -/
def disabledBuildCtx : Standalone.McpCtx :=
  { projects := [], settings := ⟨true, [("build", false)]⟩,
    listDevicesRes := .ok [], runAtErr := fun _ _ _ _ => none,
    syncAtErr := fun _ _ => none, buildAtErr := fun _ => none,
    openAtErr := fun _ _ => none, debugActions := [],
    runActionSuccess := fun _ => true, runActionMessage := fun _ => "" }

/-- A fixture manager: one registered, enabled, running plugin whose
auto-start flag is persisted as true. -/
def mgrFix : PluginMgr.Manager :=
  ⟨[⟨"mcp-server", true, true, none, none, none⟩],
   [("mcp-server", true)], [("mcp-server", true)], true,
   ⟨[("mcp-server", true)], [("mcp-server", true)]⟩⟩

/-- A UI model holding one already-cancelled process that still owns an
OS handle record. -/
def killedModel : UI.UIModel :=
  ⟨[⟨"p0", "Build", "npm run build", .cancelled, 0, some 1, ["Killed by user"], true⟩],
   1, 0, [], 5000⟩

/-! ## Helper lemmas -/

theorem lookup_setAssoc_self {β : Type} (m : List (String × β)) (k : String) (v : β) :
    (setAssoc m k v).lookup k = some v := by
  induction m with
  | nil => simp [setAssoc, List.lookup]
  | cons hd tl ih =>
    obtain ⟨k', v'⟩ := hd
    by_cases h : k' = k
    · simp [setAssoc, h, List.lookup]
    · simp only [setAssoc, if_neg h, List.lookup]
      have : (k == k') = false := by
        simp [beq_iff_eq]
        exact fun hh => h hh.symm
      simp [this, ih]

theorem lookup_setAssoc_ne {β : Type} (m : List (String × β)) (k k' : String) (v : β)
    (h : k' ≠ k) : (setAssoc m k v).lookup k' = m.lookup k' := by
  induction m with
  | nil =>
    simp only [setAssoc, List.lookup]
    have : (k' == k) = false := by simp [beq_iff_eq]; exact h
    simp [this]
  | cons hd tl ih =>
    obtain ⟨k₀, v₀⟩ := hd
    by_cases hk : k₀ = k
    · subst hk
      have : (k' == k₀) = false := by simp [beq_iff_eq]; exact h
      simp [setAssoc, List.lookup, this]
    · simp only [setAssoc, if_neg hk, List.lookup]
      by_cases hk' : k' = k₀
      · subst hk'
        simp
      · have : (k' == k₀) = false := by simp [beq_iff_eq]; exact hk'
        simp [this, ih]

/-! ## Claims -/

/-- C1 counterexample: with persisted settings whose per-tool flag for
`build` is false, the plugin MCP server still lists `build` in its
`tools/list` catalog, and a `tools/call` naming `build` executes the
build operation and returns no error at all — the plugin server never
consults the enablement flags. -/
theorem C1_counterexample_plugin_server_ignores_disabled_flag :
    (Settings.mk true [("build", false)]).IsMCPToolEnabled "build" = false ∧
    "build" ∈ MCPServer.handleToolsList.map (fun t => t.name) ∧
    (MCPServer.handleToolsCall trivialCtx (.ok ⟨"build", []⟩)).error = none ∧
    (MCPServer.handleToolsCall trivialCtx (.ok ⟨"build", []⟩)).effects =
      [MCPServer.Effect.build] :=
  ⟨by decide, by decide, rfl, rfl⟩

/-- C1 amended: the per-tool enablement gate holds for the standalone
`lazycap mcp` server: a tool whose flag is false is omitted from its
`tools/list` output, and a `tools/call` naming it returns the
"disabled" structured error without performing any external operation.
The plugin MCP server does not consult the flags (see the
counterexample). -/
theorem C1_standalone_server_gates_disabled_tools
    (c : Standalone.McpCtx) (name : String) (args : MCPServer.Args)
    (h : c.settings.IsMCPToolEnabled name = false) :
    (∀ t ∈ Standalone.handleToolsList c, t.name ≠ name) ∧
    (Standalone.handleToolsCall c (.ok ⟨name, args⟩)).result = none ∧
    (Standalone.handleToolsCall c (.ok ⟨name, args⟩)).error =
      some ⟨-32601, "Tool \x27" ++ name ++ "\x27 is disabled. Enable it in lazycap settings."⟩ ∧
    (Standalone.handleToolsCall c (.ok ⟨name, args⟩)).effects = [] := by
  refine ⟨?_, ?_, ?_, ?_⟩
  · intro t ht heq
    have hmem := List.of_mem_filter ht
    rw [heq, h] at hmem
    exact Bool.false_ne_true hmem
  · simp [Standalone.handleToolsCall, h]
  · simp [Standalone.handleToolsCall, h]
  · simp [Standalone.handleToolsCall, h]

theorem C1_standalone_server_gates_disabled_tools_witness :
    (∀ t ∈ Standalone.handleToolsList disabledBuildCtx, t.name ≠ "build") ∧
    (Standalone.handleToolsCall disabledBuildCtx (.ok ⟨"build", []⟩)).error =
      some ⟨-32601, "Tool \x27" ++ "build" ++ "\x27 is disabled. Enable it in lazycap settings."⟩ ∧
    (Standalone.handleToolsCall disabledBuildCtx (.ok ⟨"build", []⟩)).effects = [] :=
  ⟨(C1_standalone_server_gates_disabled_tools disabledBuildCtx "build" [] (by decide)).1,
   (C1_standalone_server_gates_disabled_tools disabledBuildCtx "build" [] (by decide)).2.2.1,
   (C1_standalone_server_gates_disabled_tools disabledBuildCtx "build" [] (by decide)).2.2.2⟩

/-- C9: for every tool name, a false master MCP-enabled setting makes
the enablement check return false (and the enabled-tools list empty);
with the master setting true, a tool without an explicit per-tool entry
defaults to enabled. -/
theorem C9_master_flag_off_disables_and_default_is_enabled (s : Settings) (t : String) :
    (s.MCPEnabled = false → s.IsMCPToolEnabled t = false) ∧
    (s.MCPEnabled = false → s.GetEnabledMCPTools = []) ∧
    (s.MCPEnabled = true → s.MCPTools.lookup t = none → s.IsMCPToolEnabled t = true) := by
  refine ⟨fun h => ?_, fun h => ?_, fun h hl => ?_⟩
  · simp [Settings.IsMCPToolEnabled, h]
  · simp [Settings.GetEnabledMCPTools, h]
  · simp [Settings.IsMCPToolEnabled, h, hl]

theorem C9_master_flag_off_disables_and_default_is_enabled_witness :
    (Settings.mk false [("build", true)]).IsMCPToolEnabled "build" = false ∧
    (Settings.mk false [("build", true)]).GetEnabledMCPTools = [] ∧
    (Settings.mk true []).IsMCPToolEnabled "build" = true :=
  ⟨(C9_master_flag_off_disables_and_default_is_enabled ⟨false, [("build", true)]⟩ "build").1 rfl,
   (C9_master_flag_off_disables_and_default_is_enabled ⟨false, [("build", true)]⟩ "build").2.1 rfl,
   (C9_master_flag_off_disables_and_default_is_enabled ⟨true, []⟩ "build").2.2 rfl rfl⟩

/-- C10: for both built-in plugins (the MCP server plugin and the
Firebase emulator plugin), calling `Start` while already running is an
idempotent no-op: it returns nil and leaves the plugin state exactly
unchanged. -/
theorem C10_start_on_running_plugin_is_noop :
    (∀ (p : Plugins.MCPState) (listenErr : Option String), p.running = true →
      Plugins.mcpStart p listenErr = (p, none)) ∧
    (∀ (p : Plugins.FirebaseState) (env : Plugins.FirebaseEnv), p.running = true →
      Plugins.firebaseStart p env = (p, none)) := by
  constructor
  · intro p listenErr h
    simp [Plugins.mcpStart, h]
  · intro p env h
    simp [Plugins.firebaseStart, h]

theorem C10_start_on_running_plugin_is_noop_witness :
    Plugins.mcpStart ⟨true, "tcp", 9315, true, 0⟩ none = (⟨true, "tcp", 9315, true, 0⟩, none) ∧
    Plugins.firebaseStart ⟨true, true, "", 0⟩ ⟨true, ["auth"], none⟩ =
      (⟨true, true, "", 0⟩, none) :=
  ⟨(C10_start_on_running_plugin_is_noop).1 ⟨true, "tcp", 9315, true, 0⟩ none rfl,
   (C10_start_on_running_plugin_is_noop).2 ⟨true, true, "", 0⟩ ⟨true, ["auth"], none⟩ rfl⟩

/-- C8: the protocol request handler is total (no input crashes it) and
produces distinct structured error codes for an unparseable payload
(-32700), an unknown method (-32601) and invalid/missing arguments
(-32602), performing no capability call in those cases; and the
connection loop answers every line in arrival order, so the stream
stays usable after any single bad request. -/
theorem C8_bad_requests_get_distinct_errors_and_stream_survives (c : MCPServer.Ctx) :
    ((MCPServer.handleRequest c .malformed).1.error = some ⟨-32700, "Parse error"⟩ ∧
      (MCPServer.handleRequest c .malformed).2 = []) ∧
    (∀ req : MCPServer.MCPRequest,
      req.method ≠ "initialize" → req.method ≠ "tools/list" → req.method ≠ "tools/call" →
      (MCPServer.handleRequest c (.ok req)).1.error = some ⟨-32601, "Method not found"⟩ ∧
      (MCPServer.handleRequest c (.ok req)).2 = []) ∧
    (∀ rid, (MCPServer.handleRequest c (.ok ⟨rid, "tools/call", .malformed⟩)).1.error =
      some ⟨-32602, "Invalid params"⟩) ∧
    (∀ rid args, MCPServer.getStr args "deviceId" = "" →
      (MCPServer.handleRequest c
        (.ok ⟨rid, "tools/call", .ok ⟨"run_on_device", args⟩⟩)).1.error =
        some ⟨-32602, "deviceId required"⟩ ∧
      (MCPServer.handleRequest c
        (.ok ⟨rid, "tools/call", .ok ⟨"run_on_device", args⟩⟩)).2 = []) ∧
    ((-32700 : Int) ≠ -32601 ∧ (-32700 : Int) ≠ -32602 ∧ (-32601 : Int) ≠ -32602) ∧
    (∀ lines : List (MCPServer.Parsed MCPServer.MCPRequest),
      MCPServer.handleConnection c lines =
        lines.map (fun line => (MCPServer.handleRequest c line).1)) := by
  refine ⟨⟨rfl, rfl⟩, ?_, fun rid => rfl, ?_, by norm_num, ?_⟩
  · intro req h1 h2 h3
    obtain ⟨rid, rmethod, rparams⟩ := req
    simp only [MCPServer.handleRequest]
    exact ⟨trivial, trivial⟩
  · intro rid args h
    constructor <;>
      simp [MCPServer.handleRequest, MCPServer.handleToolsCall, MCPServer.toolRunOnDevice, h]
  · intro lines
    induction lines with
    | nil => rfl
    | cons line rest ih => simp [MCPServer.handleConnection, ih]

theorem C8_bad_requests_get_distinct_errors_and_stream_survives_witness :
    (MCPServer.handleRequest trivialCtx (.ok ⟨none, "bogus/method", .malformed⟩)).1.error =
      some ⟨-32601, "Method not found"⟩ ∧
    (MCPServer.handleRequest trivialCtx
      (.ok ⟨none, "tools/call", .ok ⟨"run_on_device", []⟩⟩)).1.error =
      some ⟨-32602, "deviceId required"⟩ ∧
    MCPServer.handleConnection trivialCtx [.malformed, .malformed] =
      [.malformed, .malformed].map (fun line => (MCPServer.handleRequest trivialCtx line).1) :=
  ⟨((C8_bad_requests_get_distinct_errors_and_stream_survives trivialCtx).2.1
      ⟨none, "bogus/method", .malformed⟩ (by decide) (by decide) (by decide)).1,
   ((C8_bad_requests_get_distinct_errors_and_stream_survives trivialCtx).2.2.2.1 none [] rfl).1,
   (C8_bad_requests_get_distinct_errors_and_stream_survives trivialCtx).2.2.2.2.2
     [.malformed, .malformed]⟩

theorem get?_set_self {α : Type} (l : List α) (i : Nat) (a : α) (h : i < l.length) :
    (l.set i a).get? i = some a := by
  induction l generalizing i with
  | nil => simp at h
  | cons hd tl ih =>
    cases i with
    | zero => rfl
    | succ n =>
      simp only [List.set, List.get?]
      exact ih n (by simpa using h)

theorem get?_set_ne {α : Type} (l : List α) (i j : Nat) (a : α) (h : j ≠ i) :
    (l.set i a).get? j = l.get? j := by
  induction l generalizing i j with
  | nil => simp
  | cons hd tl ih =>
    cases i with
    | zero =>
      cases j with
      | zero => exact absurd rfl h
      | succ n => rfl
    | succ m =>
      cases j with
      | zero => rfl
      | succ n =>
        simp only [List.set, List.get?]
        exact ih m n (by omega)

theorem slots_setSlots_self (eb : Bus.EventBus) (e : String) (l : List (Option Nat)) :
    Bus.slots (Bus.setSlots eb e l) e = l := by
  simp [Bus.slots, Bus.setSlots, lookup_setAssoc_self]

theorem slots_setSlots_ne (eb : Bus.EventBus) (e e' : String) (l : List (Option Nat))
    (h : e' ≠ e) : Bus.slots (Bus.setSlots eb e l) e' = Bus.slots eb e' := by
  simp [Bus.slots, Bus.setSlots, lookup_setAssoc_ne _ _ _ _ h]

/-- A tombstoned slot stays tombstoned across any bus operation:
subscriptions only append, unsubscription only writes `none`, emit does
not change the table. -/
theorem bus_dead_slot_preserved (eb : Bus.EventBus) (e : String) (i : Nat) (op : Bus.BusOp)
    (h : (Bus.slots eb e).get? i = some none) :
    (Bus.slots (Bus.step eb op).1 e).get? i = some none := by
  have hlt : i < (Bus.slots eb e).length := by
    by_contra hge
    rw [List.get?_eq_none.2 (by omega)] at h
    exact Option.noConfusion h
  cases op with
  | subscribeOp e' hnd =>
    by_cases he : e' = e
    · subst he
      simp only [Bus.step, Bus.subscribe, slots_setSlots_self]
      rw [List.get?_append hlt]
      exact h
    · simpa [Bus.step, Bus.subscribe,
        slots_setSlots_ne _ _ _ _ (fun hh => he hh.symm)] using h
  | unsubscribeOp e' j =>
    by_cases he : e' = e
    · subst he
      simp only [Bus.step, Bus.unsubscribe]
      by_cases hj : j < (Bus.slots eb e').length
      · rw [if_pos hj, slots_setSlots_self]
        by_cases hij : i = j
        · subst hij
          exact get?_set_self _ _ _ hlt
        · rw [get?_set_ne _ _ _ _ hij]
          exact h
      · rw [if_neg hj]
        exact h
    · by_cases hj : j < (Bus.slots eb e').length
      · simpa [Bus.step, Bus.unsubscribe, hj,
          slots_setSlots_ne _ _ _ _ (fun hh => he hh.symm)] using h
      · simpa [Bus.step, Bus.unsubscribe, hj] using h
  | emitOp e' =>
    simpa [Bus.step] using h

/-- Every invocation of an emit points at a slot that currently holds
the invoked handler. -/
theorem mem_invocationsOf {e : String} {l : List (Option Nat)} {k : Nat}
    {inv : Bus.Invocation} (h : inv ∈ Bus.invocationsOf e l k) :
    inv.event = e ∧ ∃ j, inv.index = k + j ∧ l.get? j = some (some inv.handler) := by
  induction l generalizing k with
  | nil => simp [Bus.invocationsOf] at h
  | cons hd tl ih =>
    cases hd with
    | none =>
      simp only [Bus.invocationsOf] at h
      obtain ⟨hev, j, hidx, hget⟩ := ih h
      exact ⟨hev, j + 1, by omega, by simpa using hget⟩
    | some hh =>
      simp only [Bus.invocationsOf, List.mem_cons] at h
      rcases h with h | h
      · subst h
        exact ⟨rfl, 0, rfl, rfl⟩
      · obtain ⟨hev, j, hidx, hget⟩ := ih h
        exact ⟨hev, j + 1, by omega, by simpa using hget⟩

/-- Emit never invokes a tombstoned slot. -/
theorem emit_skips_dead_slot (eb : Bus.EventBus) (e e' : String) (i : Nat)
    (h : (Bus.slots eb e).get? i = some none) :
    ∀ inv ∈ Bus.emit eb e', ¬(inv.event = e ∧ inv.index = i) := by
  intro inv hinv ⟨hev, hidx⟩
  obtain ⟨hev', j, hidx', hget⟩ := mem_invocationsOf hinv
  have : e' = e := by rw [← hev, hev']
  subst this
  have : j = i := by omega
  subst this
  rw [h] at hget
  exact Option.noConfusion (Option.some.inj hget)

/-- Once a slot is tombstoned, no later operation sequence ever invokes
it. -/
theorem runOps_skips_dead_slot (eb : Bus.EventBus) (e : String) (i : Nat)
    (ops : List Bus.BusOp) (h : (Bus.slots eb e).get? i = some none) :
    ∀ inv ∈ (Bus.runOps eb ops).2, ¬(inv.event = e ∧ inv.index = i) := by
  induction ops generalizing eb with
  | nil => simp [Bus.runOps]
  | cons op rest ih =>
    intro inv hinv
    simp only [Bus.runOps, List.mem_append] at hinv
    rcases hinv with hinv | hinv
    · cases op with
      | subscribeOp e' hnd => simp [Bus.step] at hinv
      | unsubscribeOp e' j => simp [Bus.step] at hinv
      | emitOp e' => exact emit_skips_dead_slot eb e e' i h inv hinv
    · exact ih (Bus.step eb op).1 (bus_dead_slot_preserved eb e i op h) inv hinv

/-- C6: after the unsubscribe capability returned by `Subscribe` has
run, the handler of that subscription is invoked for zero events emitted
afterwards — no later `Emit` of any event kind, interleaved with any
further subscriptions or unsubscriptions, ever dispatches to the
tombstoned slot. -/
theorem C6_unsubscribed_handler_receives_no_later_events
    (eb : Bus.EventBus) (e : String) (i : Nat) (ops : List Bus.BusOp)
    (hlive : i < (Bus.slots eb e).length) :
    ∀ inv ∈ (Bus.runOps (Bus.unsubscribe eb e i) ops).2,
      ¬(inv.event = e ∧ inv.index = i) := by
  apply runOps_skips_dead_slot
  simp only [Bus.unsubscribe, if_pos hlive, slots_setSlots_self]
  exact get?_set_self _ _ _ hlive

theorem C6_unsubscribed_handler_receives_no_later_events_witness :
    (Bus.Invocation.mk "process:started" 0 7 ∈ (Bus.runOps
        (Bus.unsubscribe ⟨[("process:started", [some 7])]⟩ "process:started" 0)
        [.emitOp "process:started", .subscribeOp "process:started" 8,
         .emitOp "process:started", .emitOp "app:stopping"]).2) = False :=
  eq_false (fun hmem =>
    C6_unsubscribed_handler_receives_no_later_events
      ⟨[("process:started", [some 7])]⟩ "process:started" 0
      [.emitOp "process:started", .subscribeOp "process:started" 8,
       .emitOp "process:started", .emitOp "app:stopping"]
      (by decide) (Bus.Invocation.mk "process:started" 0 7) hmem ⟨rfl, rfl⟩)

/-- Rewriting the registry entry found by `find?` yields the new entry
on the next `find?` with the same identifier predicate. -/
theorem find?_map_update (l : List PluginMgr.PluginObj) (pid : String)
    (p p' : PluginMgr.PluginObj)
    (h : l.find? (fun q => q.id = pid) = some p) (hid : p'.id = pid) :
    (l.map (fun q => if q.id = pid then p' else q)).find? (fun q => q.id = pid) = some p' := by
  induction l with
  | nil => simp [List.find?] at h
  | cons a l ih =>
    by_cases ha : a.id = pid
    · simp only [List.map, if_pos ha]
      rw [List.find?_cons_of_pos _ (by simpa using hid)]
    · simp only [List.map, if_neg ha]
      rw [List.find?_cons_of_neg _ (by simpa using ha)]
      rw [List.find?_cons_of_neg _ (by simpa using ha)] at h
      exact ih h

/-- C5 counterexample: `SetEnabled(id, false)` on an enabled, running
plugin stops the plugin, but the persisted should-auto-start flag is
left at `true` — `SetEnabled` itself never clears it (the UI caller
does, via a separate `SetRunning(id, false)`). -/
theorem C5_counterexample_setenabled_false_keeps_autostart_flag :
    (mgrFix.SetEnabled "mcp-server" false).2 = none ∧
    ((mgrFix.SetEnabled "mcp-server" false).1.plugins.map (fun p => p.running)) = [false] ∧
    (mgrFix.SetEnabled "mcp-server" false).1.running.lookup "mcp-server" = some true ∧
    (mgrFix.SetEnabled "mcp-server" false).1.saved.running.lookup "mcp-server" = some true := by
  decide

/-- C5 amended: (enable direction, as claimed) `SetEnabled(id, true)`
while the session is active on a previously-disabled plugin persists the
flag and performs `Init` then `Start` on the plugin's behalf, so the
plugin is running without a separate `Start` call; (disable direction,
amended) disabling an enabled running plugin stops it and persists the
flag, and the persisted should-auto-start flag is cleared not by
`SetEnabled` but by the UI toggle handler, which calls
`SetRunning(id, false)` after a successful disable. -/
theorem C5_set_enabled_lifecycle :
    (∀ (m : PluginMgr.Manager) (pid : String) (p : PluginMgr.PluginObj),
      m.started = true →
      PluginMgr.lookupFalse m.enabled pid = false →
      m.plugins.find? (fun q => q.id = pid) = some p →
      p.initErr = none → p.startErr = none →
      (m.SetEnabled pid true).2 = none ∧
      (m.SetEnabled pid true).1.saved.enabled.lookup pid = some true ∧
      ∃ p', (m.SetEnabled pid true).1.plugins.find? (fun q => q.id = pid) = some p' ∧
        p'.running = true ∧ p'.inited = true) ∧
    (∀ (m : PluginMgr.Manager) (pid : String) (p : PluginMgr.PluginObj),
      m.enabled.lookup pid = some true →
      m.plugins.find? (fun q => q.id = pid) = some p →
      p.running = true → p.stopErr = none →
      (PluginMgr.togglePluginEnabled m pid).2 = none ∧
      (PluginMgr.togglePluginEnabled m pid).1.saved.enabled.lookup pid = some false ∧
      (PluginMgr.togglePluginEnabled m pid).1.running.lookup pid = some false ∧
      (PluginMgr.togglePluginEnabled m pid).1.saved.running.lookup pid = some false ∧
      ∃ p', (PluginMgr.togglePluginEnabled m pid).1.plugins.find? (fun q => q.id = pid) = some p' ∧
        p'.running = false) := by
  constructor
  · intro m pid p hstart hwas hfind hinit hstartE
    have hpid : p.id = pid := by simpa using List.find?_some hfind
    by_cases hrun : p.running = true
    · have hres : m.SetEnabled pid true =
          (PluginMgr.saveConfig (PluginMgr.updatePlugin
            { m with enabled := setAssoc m.enabled pid true } pid
            { p with inited := true }), none) := by
        simp [PluginMgr.Manager.SetEnabled, hwas, hstart, hfind, PluginMgr.pluginInit, hinit,
          PluginMgr.pluginStart, hrun]
      rw [hres]
      refine ⟨rfl, ?_, { p with inited := true }, ?_, hrun, rfl⟩
      · simp [PluginMgr.saveConfig, PluginMgr.updatePlugin, lookup_setAssoc_self]
      · simp only [PluginMgr.saveConfig, PluginMgr.updatePlugin]
        exact find?_map_update _ _ _ _ hfind (by simpa using hpid)
    · have hrunf : p.running = false := by simpa using hrun
      have hres : m.SetEnabled pid true =
          (PluginMgr.saveConfig (PluginMgr.updatePlugin
            { m with enabled := setAssoc m.enabled pid true } pid
            { p with inited := true, running := true }), none) := by
        simp [PluginMgr.Manager.SetEnabled, hwas, hstart, hfind, PluginMgr.pluginInit, hinit,
          PluginMgr.pluginStart, hrunf, hstartE]
      rw [hres]
      refine ⟨rfl, ?_, { p with inited := true, running := true }, ?_, rfl, rfl⟩
      · simp [PluginMgr.saveConfig, PluginMgr.updatePlugin, lookup_setAssoc_self]
      · simp only [PluginMgr.saveConfig, PluginMgr.updatePlugin]
        exact find?_map_update _ _ _ _ hfind (by simpa using hpid)
  · intro m pid p hlook hfind hrun hstop
    have hpid : p.id = pid := by simpa using List.find?_some hfind
    have hwas : PluginMgr.lookupFalse m.enabled pid = true := by
      simp [PluginMgr.lookupFalse, hlook]
    have hen : m.IsEnabled pid = true := by
      simp [PluginMgr.Manager.IsEnabled, hlook]
    have hres : m.SetEnabled pid false =
        (PluginMgr.saveConfig (PluginMgr.updatePlugin
          { m with enabled := setAssoc m.enabled pid false } pid
          { p with running := false }), none) := by
      simp [PluginMgr.Manager.SetEnabled, hwas, hfind, PluginMgr.pluginStop, hrun, hstop]
    have htog : PluginMgr.togglePluginEnabled m pid =
        ((PluginMgr.saveConfig (PluginMgr.updatePlugin
          { m with enabled := setAssoc m.enabled pid false } pid
          { p with running := false })).SetRunning pid false, none) := by
      simp [PluginMgr.togglePluginEnabled, hen, hres]
    rw [htog]
    refine ⟨rfl, ?_, ?_, ?_, { p with running := false }, ?_, rfl⟩
    · simp [PluginMgr.Manager.SetRunning, PluginMgr.saveConfig, PluginMgr.updatePlugin,
        lookup_setAssoc_self]
    · simp [PluginMgr.Manager.SetRunning, PluginMgr.saveConfig, lookup_setAssoc_self]
    · simp [PluginMgr.Manager.SetRunning, PluginMgr.saveConfig, lookup_setAssoc_self]
    · simp only [PluginMgr.Manager.SetRunning, PluginMgr.saveConfig, PluginMgr.updatePlugin]
      exact find?_map_update _ _ _ _ hfind (by simpa using hpid)

theorem C5_set_enabled_lifecycle_witness :
    ((PluginMgr.Manager.mk [⟨"mcp-server", false, false, none, none, none⟩]
        [("mcp-server", false)] [("mcp-server", true)] true
        ⟨[("mcp-server", false)], [("mcp-server", true)]⟩).SetEnabled "mcp-server" true).2 =
      none ∧
    (PluginMgr.togglePluginEnabled mgrFix "mcp-server").1.running.lookup "mcp-server" =
      some false :=
  ⟨((C5_set_enabled_lifecycle).1
      (PluginMgr.Manager.mk [⟨"mcp-server", false, false, none, none, none⟩]
        [("mcp-server", false)] [("mcp-server", true)] true
        ⟨[("mcp-server", false)], [("mcp-server", true)]⟩)
      "mcp-server" ⟨"mcp-server", false, false, none, none, none⟩
      rfl (by decide) (by decide) rfl rfl).1,
   ((C5_set_enabled_lifecycle).2 mgrFix "mcp-server"
      ⟨"mcp-server", true, true, none, none, none⟩
      (by decide) (by decide) rfl rfl).2.2.1⟩

theorem snapshotAux_plugins (m : PluginMgr.Manager) (l : List PluginMgr.PluginObj) :
    (PluginMgr.snapshotAux m l).plugins = m.plugins := by
  induction l generalizing m with
  | nil => rfl
  | cons p rest ih =>
    simp [PluginMgr.snapshotAux, ih, PluginMgr.Manager.SetRunning, PluginMgr.saveConfig]

theorem snapshotAux_running_lookup_not_mem (m : PluginMgr.Manager)
    (l : List PluginMgr.PluginObj) (k : String) (h : ∀ p ∈ l, p.id ≠ k) :
    (PluginMgr.snapshotAux m l).running.lookup k = m.running.lookup k := by
  induction l generalizing m with
  | nil => rfl
  | cons p rest ih =>
    simp only [PluginMgr.snapshotAux]
    rw [ih _ (fun q hq => h q (List.mem_cons_of_mem _ hq))]
    simp [PluginMgr.Manager.SetRunning, PluginMgr.saveConfig,
      lookup_setAssoc_ne _ _ _ _ (fun hk => h p (List.mem_cons_self _ _) hk.symm)]

theorem snapshotAux_running_lookup (m : PluginMgr.Manager) (l : List PluginMgr.PluginObj)
    (hnd : (l.map (fun p => p.id)).Nodup) (p : PluginMgr.PluginObj) (hp : p ∈ l) :
    (PluginMgr.snapshotAux m l).running.lookup p.id = some p.running := by
  induction l generalizing m with
  | nil => simp at hp
  | cons q rest ih =>
    simp only [List.map, List.nodup_cons] at hnd
    rcases List.mem_cons.1 hp with hp | hp
    · subst hp
      simp only [PluginMgr.snapshotAux]
      rw [snapshotAux_running_lookup_not_mem _ _ _
        (fun r hr hk => hnd.1 (by rw [← hk]; exact List.mem_map_of_mem _ hr))]
      simp [PluginMgr.Manager.SetRunning, PluginMgr.saveConfig, lookup_setAssoc_self]
    · exact ih _ hnd.2 hp

theorem snapshotAux_saved_running (m : PluginMgr.Manager) (l : List PluginMgr.PluginObj)
    (h : l ≠ []) :
    (PluginMgr.snapshotAux m l).saved.running = (PluginMgr.snapshotAux m l).running := by
  induction l generalizing m with
  | nil => exact absurd rfl h
  | cons p rest ih =>
    cases rest with
    | nil => simp [PluginMgr.snapshotAux, PluginMgr.Manager.SetRunning, PluginMgr.saveConfig]
    | cons q rest' =>
      simp only [PluginMgr.snapshotAux]
      exact ih _ (by simp)

theorem stopAllAux_get? (l : List PluginMgr.PluginObj) (e0 : Option String) (i : Nat)
    (p : PluginMgr.PluginObj) (hp : l.get? i = some p) :
    (PluginMgr.stopAllAux l e0).1.get? i =
      some (if p.running then (PluginMgr.pluginStop p).1 else p) := by
  induction l generalizing i e0 with
  | nil => simp at hp
  | cons q rest ih =>
    cases i with
    | zero =>
      have : q = p := by simpa using hp
      subst this
      by_cases hrun : q.running = true
      · simp [PluginMgr.stopAllAux, hrun]
      · have hrunf : q.running = false := by simpa using hrun
        simp [PluginMgr.stopAllAux, hrunf]
    | succ n =>
      have hp' : rest.get? n = some p := by simpa using hp
      by_cases hrun : q.running = true
      · simpa [PluginMgr.stopAllAux, hrun] using ih _ _ hp'
      · have hrunf : q.running = false := by simpa using hrun
        simpa [PluginMgr.stopAllAux, hrunf] using ih _ _ hp'

theorem getLast?_cons_eq {α : Type} (a : α) (l : List α) :
    (a :: l).getLast? = (match l.getLast? with | some x => some x | none => some a) := by
  induction l generalizing a with
  | nil => rfl
  | cons b l ih =>
    rw [List.getLast?_cons_cons, ih b]
    cases hl : l.getLast? <;> simp

theorem stopAllAux_err (l : List PluginMgr.PluginObj) (e0 : Option String) :
    (PluginMgr.stopAllAux l e0).2 =
      (match ((l.filter (fun p => p.running)).filterMap (fun p => p.stopErr)).getLast? with
        | some e => some e
        | none => e0) := by
  induction l generalizing e0 with
  | nil => rfl
  | cons p rest ih =>
    by_cases hrun : p.running = true
    · cases hstop : p.stopErr with
      | none =>
        have hih := ih e0
        simp [PluginMgr.stopAllAux, hrun, PluginMgr.pluginStop, hstop, List.filter_cons,
          List.filterMap_cons, hih]
      | some e =>
        have hih := ih (some e)
        simp only [PluginMgr.stopAllAux, hrun, if_true, PluginMgr.pluginStop, hstop, hih,
          List.filter_cons, List.filterMap_cons]
        rw [getLast?_cons_eq]
        cases hl : ((rest.filter (fun p => p.running)).filterMap (fun p => p.stopErr)).getLast? <;>
          simp [hih, hl]
    · have hrunf : p.running = false := by simpa using hrun
      have hih := ih e0
      simp [PluginMgr.stopAllAux, hrunf, List.filter_cons, hih]

/-- C7: the graceful-shutdown stop-all path first snapshots every
registered plugin's live running state into the persisted auto-start
flag (each snapshot flushes to durable storage), then stops every
currently-running plugin independently: a record whose `Stop` succeeds
ends not running, a non-running record is untouched, one plugin's stop
failure does not prevent the others from being stopped, and the value
returned is exactly the last stop error (none when none failed).  The
persisted flags afterwards reflect the pre-shutdown running set, so the
next session's auto-start replays it. -/
theorem C7_stop_all_snapshots_then_stops_independently (m : PluginMgr.Manager)
    (hnd : (m.plugins.map (fun p => p.id)).Nodup) :
    (∀ i p, m.plugins.get? i = some p →
      (PluginMgr.gracefulShutdownPlugins m).1.plugins.get? i =
        some (if p.running then (PluginMgr.pluginStop p).1 else p)) ∧
    (∀ i p, m.plugins.get? i = some p → p.running = true → p.stopErr = none →
      ∃ p', (PluginMgr.gracefulShutdownPlugins m).1.plugins.get? i = some p' ∧
        p'.running = false ∧ p'.id = p.id) ∧
    ((PluginMgr.gracefulShutdownPlugins m).2 =
      ((m.plugins.filter (fun p => p.running)).filterMap (fun p => p.stopErr)).getLast?) ∧
    (∀ p ∈ m.plugins,
      (PluginMgr.gracefulShutdownPlugins m).1.running.lookup p.id = some p.running) ∧
    (∀ p ∈ m.plugins,
      (PluginMgr.gracefulShutdownPlugins m).1.saved.running.lookup p.id = some p.running) := by
  have hplug : (PluginMgr.snapshotAux m m.plugins).plugins = m.plugins :=
    snapshotAux_plugins m m.plugins
  have hstep1 : ∀ i p, m.plugins.get? i = some p →
      (PluginMgr.gracefulShutdownPlugins m).1.plugins.get? i =
        some (if p.running then (PluginMgr.pluginStop p).1 else p) := by
    intro i p hp
    simp only [PluginMgr.gracefulShutdownPlugins, PluginMgr.Manager.StopAll]
    exact stopAllAux_get? _ none i p (by rw [hplug]; exact hp)
  refine ⟨hstep1, ?_, ?_, ?_, ?_⟩
  · intro i p hp hrun hstop
    refine ⟨(PluginMgr.pluginStop p).1, ?_, ?_, ?_⟩
    · rw [hstep1 i p hp, hrun]
      simp
    · simp [PluginMgr.pluginStop, hrun, hstop]
    · simp [PluginMgr.pluginStop, hrun, hstop]
  · simp only [PluginMgr.gracefulShutdownPlugins, PluginMgr.Manager.StopAll]
    rw [stopAllAux_err, hplug]
    cases ((m.plugins.filter (fun p => p.running)).filterMap (fun p => p.stopErr)).getLast? <;>
      rfl
  · intro p hp
    simp only [PluginMgr.gracefulShutdownPlugins, PluginMgr.Manager.StopAll]
    exact snapshotAux_running_lookup m m.plugins hnd p hp
  · intro p hp
    simp only [PluginMgr.gracefulShutdownPlugins, PluginMgr.Manager.StopAll]
    rw [snapshotAux_saved_running m m.plugins (fun hnil => by rw [hnil] at hp; simp at hp)]
    exact snapshotAux_running_lookup m m.plugins hnd p hp

theorem C7_stop_all_snapshots_then_stops_independently_witness :
    (PluginMgr.gracefulShutdownPlugins mgrFix).2 = none ∧
    (PluginMgr.gracefulShutdownPlugins mgrFix).1.saved.running.lookup "mcp-server" =
      some true :=
  ⟨by
    have h := (C7_stop_all_snapshots_then_stops_independently mgrFix (by decide)).2.2.1
    rw [h]; decide,
   (C7_stop_all_snapshots_then_stops_independently mgrFix (by decide)).2.2.2.2
     ⟨"mcp-server", true, true, none, none, none⟩ (by decide)⟩

theorem updateFirst_get?_of_neg {α : Type} (c : α → Bool) (f : α → α) (l : List α)
    (i : Nat) (a : α) (ha : l.get? i = some a) (hc : c a = false) :
    (UI.updateFirst c f l).get? i = some a := by
  induction l generalizing i with
  | nil => simp at ha
  | cons hd tl ih =>
    by_cases chd : c hd = true
    · cases i with
      | zero =>
        have : hd = a := by simpa using ha
        subst this
        rw [chd] at hc
        exact Bool.noConfusion hc
      | succ n =>
        simp only [UI.updateFirst, chd, if_true]
        simpa using ha
    · have chd' : c hd = false := by simpa using chd
      cases i with
      | zero =>
        have : hd = a := by simpa using ha
        subst this
        simp [UI.updateFirst, chd']
      | succ n =>
        simp only [UI.updateFirst, chd', Bool.false_eq_true, if_false]
        exact ih n (by simpa using ha)

theorem updateFirst_get?_or {α : Type} (c : α → Bool) (f : α → α) (l : List α)
    (i : Nat) (a : α) (ha : l.get? i = some a) :
    (UI.updateFirst c f l).get? i = some a ∨
      ((UI.updateFirst c f l).get? i = some (f a) ∧ c a = true) := by
  induction l generalizing i with
  | nil => simp at ha
  | cons hd tl ih =>
    by_cases chd : c hd = true
    · cases i with
      | zero =>
        have : hd = a := by simpa using ha
        subst this
        right
        simp [UI.updateFirst, chd]
      | succ n =>
        left
        simp only [UI.updateFirst, chd, if_true]
        simpa using ha
    · have chd' : c hd = false := by simpa using chd
      cases i with
      | zero =>
        have : hd = a := by simpa using ha
        subst this
        left
        simp [UI.updateFirst, chd']
      | succ n =>
        simp only [UI.updateFirst, chd', Bool.false_eq_true, if_false]
        exact ih n (by simpa using ha)

theorem modifyAt_get?_eq {α : Type} (f : α → α) (l : List α) (i : Nat) :
    (UI.modifyAt f l i).get? i = (l.get? i).map f := by
  induction l generalizing i with
  | nil => simp [UI.modifyAt]
  | cons hd tl ih =>
    cases i with
    | zero => rfl
    | succ n => simpa [UI.modifyAt] using ih n

theorem modifyAt_get?_ne {α : Type} (f : α → α) (l : List α) (i j : Nat) (h : j ≠ i) :
    (UI.modifyAt f l i).get? j = l.get? j := by
  induction l generalizing i j with
  | nil => simp [UI.modifyAt]
  | cons hd tl ih =>
    cases i with
    | zero =>
      cases j with
      | zero => exact absurd rfl h
      | succ n => rfl
    | succ m =>
      cases j with
      | zero => rfl
      | succ n => simpa [UI.modifyAt] using ih m n (by omega)

theorem addLog_id (maxLines : Nat) (p : UI.Proc) (line : String) :
    (UI.addLog maxLines p line).id = p.id := rfl

theorem addLog_status (maxLines : Nat) (p : UI.Proc) (line : String) :
    (UI.addLog maxLines p line).status = p.status := rfl

theorem pluginTabApply_id (maxLines now : Nat) (message ts : String) (p : UI.Proc) :
    (UI.pluginTabApply maxLines now message ts p).id = p.id := by
  simp only [UI.pluginTabApply, UI.addLog]
  split <;> split <;> rfl

theorem pluginTabApply_status_ne_running (maxLines now : Nat) (message ts : String)
    (p : UI.Proc) (h : p.status ≠ .running) :
    (UI.pluginTabApply maxLines now message ts p).status ≠ UI.ProcessStatus.running := by
  simp only [UI.pluginTabApply, UI.addLog]
  split
  · intro hcontra
    exact UI.ProcessStatus.noConfusion hcontra
  · split
    · intro hcontra
      exact UI.ProcessStatus.noConfusion hcontra
    · exact h

theorem getSelectedProcess_some (m : UI.UIModel) (sel : UI.Proc)
    (h : UI.getSelectedProcess m = some sel) :
    m.selectedProcess < m.processes.length ∧
      m.processes.get? m.selectedProcess = some sel := by
  by_cases hc : m.processes.length = 0 ∨ m.processes.length ≤ m.selectedProcess
  · rw [UI.getSelectedProcess, if_pos hc] at h
    exact Option.noConfusion h
  · rw [UI.getSelectedProcess, if_neg hc] at h
    push_neg at hc
    exact ⟨by omega, h⟩

/-- C3 counterexample: a plugin log tab reaches the terminal status
`Succeeded` on a "stopped" message, and a later "error:" log message
flips it to `Failed` — a terminal status is changed by a subsequent
operation. -/
theorem C3_counterexample_plugin_tab_status_flips :
    ((UI.uiStep (fun s => s) ⟨[], 0, 0, [], 5000⟩ 1
        (.pluginLog "firebase" "Firebase emulators stopped" "t1")).1.processes.map
      (fun p => p.status)) = [.success] ∧
    ((UI.uiStep (fun s => s)
        (UI.uiStep (fun s => s) ⟨[], 0, 0, [], 5000⟩ 1
          (.pluginLog "firebase" "Firebase emulators stopped" "t1")).1 2
        (.pluginLog "firebase" "error: emulator crashed" "t2")).1.processes.map
      (fun p => p.status)) = [.failed] := by
  constructor <;> decide

/-- C3 amended: for every process record with a terminal status
(`Succeeded`/`Failed`/`Cancelled`), no subsequent operation ever returns
it to `Running`, and every operation except the plugin-log message
handler leaves the terminal status unchanged; the plugin-log handler may
flip a plugin tab's terminal status between `Succeeded` and `Failed`
(see the counterexample) but never back to `Running`. -/
theorem C3_terminal_status_stable_except_plugin_log
    (strip : String → String) (m : UI.UIModel) (now : Nat) (msg : UI.Msg)
    (i : Nat) (p : UI.Proc) (hp : m.processes.get? i = some p)
    (hterm : p.status ≠ UI.ProcessStatus.running) :
    ∃ q, (UI.uiStep strip m now msg).1.processes.get? i = some q ∧ q.id = p.id ∧
      q.status ≠ UI.ProcessStatus.running ∧
      (msg.isPluginLog = false → q.status = p.status) := by
  cases msg with
  | processStarted pid =>
    by_cases hany : m.processes.any (fun p => p.id == pid) = true
    · simp only [UI.uiStep, UI.handleProcessStarted, hany, if_true]
      rcases updateFirst_get?_or _ _ m.processes i p hp with h | ⟨h, _⟩
      · exact ⟨p, h, rfl, hterm, fun _ => rfl⟩
      · exact ⟨{ p with hasCmd := true }, h, rfl, hterm, fun _ => rfl⟩
    · simp only [UI.uiStep, UI.handleProcessStarted, hany, Bool.false_eq_true, if_false]
      exact ⟨p, hp, rfl, hterm, fun _ => rfl⟩
  | processOutput pid line =>
    simp only [UI.uiStep, UI.handleProcessOutput]
    rcases updateFirst_get?_or _ _ m.processes i p hp with h | ⟨h, _⟩
    · exact ⟨p, h, rfl, hterm, fun _ => rfl⟩
    · refine ⟨_, h, ?_, ?_, fun _ => ?_⟩ <;>
        by_cases hcl : (strip line).trim ≠ "" <;>
          simp [hcl, UI.addLog, hterm]
  | processFinished pid err =>
    have hc : (p.id == pid && p.status == UI.ProcessStatus.running) = false := by
      have : (p.status == UI.ProcessStatus.running) = false := by
        simpa [beq_iff_eq] using hterm
      simp [this]
    simp only [UI.uiStep, UI.handleProcessFinished]
    exact ⟨p, updateFirst_get?_of_neg _ _ m.processes i p hp hc, rfl, hterm, fun _ => rfl⟩
  | pluginLog plid message ts =>
    cases hfind : m.processes.findIdx? (fun p => p.id == "plugin-" ++ plid) with
    | some j =>
      simp only [UI.uiStep, UI.handlePluginLog, hfind]
      by_cases hij : i = j
      · subst hij
        rw [modifyAt_get?_eq, hp]
        refine ⟨_, rfl, pluginTabApply_id _ _ _ _ _,
          pluginTabApply_status_ne_running _ _ _ _ _ hterm, fun hfalse => ?_⟩
        simp [UI.Msg.isPluginLog] at hfalse
      · rw [modifyAt_get?_ne _ _ _ _ hij]
        refine ⟨p, hp, rfl, hterm, fun _ => rfl⟩
    | none =>
      simp only [UI.uiStep, UI.handlePluginLog, hfind]
      have hlt : i < m.processes.length := by
        by_contra hge
        rw [List.get?_eq_none.2 (by omega)] at hp
        exact Option.noConfusion hp
      rw [List.get?_append hlt]
      exact ⟨p, hp, rfl, hterm, fun _ => rfl⟩
  | killKey =>
    cases hsel : UI.getSelectedProcess m with
    | none =>
      simp only [UI.uiStep, UI.handleKillKey, hsel]
      exact ⟨p, hp, rfl, hterm, fun _ => rfl⟩
    | some sel =>
      by_cases hguard : (sel.status == UI.ProcessStatus.running && sel.hasCmd) = true
      · simp only [UI.uiStep, UI.handleKillKey, hsel, hguard, if_true]
        by_cases hii : i = m.selectedProcess
        · exfalso
          obtain ⟨-, hget⟩ := getSelectedProcess_some m sel hsel
          rw [← hii, hp] at hget
          have hps : p = sel := by simpa using hget
          have hand : (sel.status == UI.ProcessStatus.running) = true ∧ sel.hasCmd = true := by
            simpa [Bool.and_eq_true] using hguard
          have hsr : sel.status = UI.ProcessStatus.running := by
            have hb := hand.1
            rwa [beq_iff_eq] at hb
          exact hterm (by rw [hps]; exact hsr)
        · rw [get?_set_ne _ _ _ _ hii]
          exact ⟨p, hp, rfl, hterm, fun _ => rfl⟩
      · simp only [UI.uiStep, UI.handleKillKey, hsel, hguard, Bool.false_eq_true, if_false]
        exact ⟨p, hp, rfl, hterm, fun _ => rfl⟩

theorem C3_terminal_status_stable_except_plugin_log_witness :
    ∃ q, (UI.uiStep (fun s => s)
        ⟨[⟨"p0", "Build", "npm run build", .success, 0, some 1, [], false⟩], 1, 0, [], 5000⟩ 2
        (.processFinished "p0" none)).1.processes.get? 0 = some q ∧ q.id = "p0" ∧
      q.status ≠ UI.ProcessStatus.running ∧
      ((UI.Msg.processFinished "p0" none).isPluginLog = false →
        q.status = UI.ProcessStatus.success) :=
  C3_terminal_status_stable_except_plugin_log (fun s => s)
    ⟨[⟨"p0", "Build", "npm run build", .success, 0, some 1, [], false⟩], 1, 0, [], 5000⟩ 2
    (.processFinished "p0" none) 0
    ⟨"p0", "Build", "npm run build", .success, 0, some 1, [], false⟩ rfl (by decide)

theorem updateFirst_append {α : Type} (c : α → Bool) (f : α → α) (l : List α) (b : α)
    (hl : ∀ a ∈ l, c a = false) (hb : c b = true) :
    UI.updateFirst c f (l ++ [b]) = l ++ [f b] := by
  induction l with
  | nil => simp [UI.updateFirst, hb]
  | cons hd tl ih =>
    have hhd := hl hd (List.mem_cons_self _ _)
    simp only [List.cons_append, UI.updateFirst, hhd, Bool.false_eq_true, if_false]
    exact congrArg (fun l => hd :: l) (ih (fun a ha => hl a (List.mem_cons_of_mem _ ha)))

theorem getLast?_drop_append {α : Type} (l : List α) (x : α) (k : Nat) (hk : k ≤ l.length) :
    ((l ++ [x]).drop k).getLast? = some x := by
  induction l generalizing k with
  | nil =>
    have : k = 0 := by simpa using hk
    subst this
    rfl
  | cons hd tl ih =>
    cases k with
    | zero =>
      simp only [List.drop_zero]
      rw [List.getLast?_concat]
    | succ n =>
      simpa using ih n (by simpa using hk)

/-- C2 counterexample: an attempt whose OS-level start fails still
creates a process record — the process list grows by one and the new
record ends `Failed`, rather than the list being unchanged. -/
theorem C2_counterexample_failed_start_creates_record :
    (UI.startAttempt (fun s => s) ⟨[], 0, 0, [], 5000⟩ "Build" "npm run build" 0
      (.startErr "fork failure")).1.processes.length = 1 ∧
    ((UI.startAttempt (fun s => s) ⟨[], 0, 0, [], 5000⟩ "Build" "npm run build" 0
      (.startErr "fork failure")).1.processes.map (fun p => p.status)) = [.failed] := by
  constructor <;> decide

/-- C2 amended: `createProcess` runs before the pipes are requested, so
a failed attempt (either output pipe unavailable or the OS start
failing) still appends one new `ManagedProcess` record; the failure is
reported through a completion message that marks that record `Failed`
with a descriptive `Error: …` log line and an end time, not by leaving
the process list unchanged. -/
theorem C2_failed_start_appends_failed_record
    (strip : String → String) (m : UI.UIModel) (name command : String) (now : Nat)
    (outcome : UI.StartOutcome) (e : String)
    (herr : outcome.errOf = some e)
    (hfresh : ∀ q ∈ m.processes, q.id ≠ "p" ++ toString m.nextProcessID)
    (hcap : 1 ≤ m.maxLogLines) :
    (UI.startAttempt strip m name command now outcome).1.processes.length =
      m.processes.length + 1 ∧
    ∃ q, (UI.startAttempt strip m name command now outcome).1.processes.get?
        m.processes.length = some q ∧
      q.id = "p" ++ toString m.nextProcessID ∧
      q.status = UI.ProcessStatus.failed ∧
      q.endTime = some now ∧
      q.logs.getLast? = some ("Error: " ++ e) := by
  have hcfalse : ∀ a ∈ m.processes,
      (a.id == "p" ++ toString m.nextProcessID &&
        a.status == UI.ProcessStatus.running) = false := by
    intro a ha
    have : (a.id == "p" ++ toString m.nextProcessID) = false := by
      rw [beq_eq_false_iff_ne]
      exact hfresh a ha
    simp [this]
  have main : ∀ e',
      (UI.uiStep strip (UI.createProcess m name command now).1 now
        (.processFinished ("p" ++ toString m.nextProcessID) (some e'))).1.processes =
      m.processes ++
        [{ UI.addLog m.maxLogLines
            { (UI.createProcess m name command now).2 with status := .failed }
            ("Error: " ++ e') with endTime := some now }] := by
    intro e'
    simp only [UI.uiStep, UI.handleProcessFinished, UI.createProcess]
    rw [updateFirst_append _ _ _ _ hcfalse (by simp)]
  have final : ∀ e',
      (UI.uiStep strip (UI.createProcess m name command now).1 now
        (.processFinished ("p" ++ toString m.nextProcessID) (some e'))).1.processes.length =
        m.processes.length + 1 ∧
      ∃ q, (UI.uiStep strip (UI.createProcess m name command now).1 now
          (.processFinished ("p" ++ toString m.nextProcessID) (some e'))).1.processes.get?
          m.processes.length = some q ∧
        q.id = "p" ++ toString m.nextProcessID ∧
        q.status = UI.ProcessStatus.failed ∧
        q.endTime = some now ∧
        q.logs.getLast? = some ("Error: " ++ e') := by
    intro e'
    rw [main e']
    refine ⟨by simp, _, List.get?_concat_length _ _, rfl, rfl, rfl, ?_⟩
    exact getLast?_drop_append _ _ _ (by simp; omega)
  cases outcome with
  | started => simp [UI.StartOutcome.errOf] at herr
  | stdoutPipeErr e' =>
    have he : e' = e := by simpa [UI.StartOutcome.errOf] using herr
    subst he
    exact final e'
  | stderrPipeErr e' =>
    have he : e' = e := by simpa [UI.StartOutcome.errOf] using herr
    subst he
    exact final e'
  | startErr e' =>
    have he : e' = e := by simpa [UI.StartOutcome.errOf] using herr
    subst he
    exact final e'

theorem C2_failed_start_appends_failed_record_witness :
    (UI.startAttempt (fun s => s) ⟨[], 0, 0, [], 5000⟩ "Build" "npm run build" 7
      (.stdoutPipeErr "pipe failure")).1.processes.length = 0 + 1 ∧
    ∃ q, (UI.startAttempt (fun s => s) ⟨[], 0, 0, [], 5000⟩ "Build" "npm run build" 7
        (.stdoutPipeErr "pipe failure")).1.processes.get? 0 = some q ∧
      q.id = "p" ++ toString (0 : Nat) ∧
      q.status = UI.ProcessStatus.failed ∧
      q.endTime = some 7 ∧
      q.logs.getLast? = some ("Error: " ++ "pipe failure") :=
  C2_failed_start_appends_failed_record (fun s => s) ⟨[], 0, 0, [], 5000⟩
    "Build" "npm run build" 7 (.stdoutPipeErr "pipe failure") "pipe failure"
    rfl (by simp) (by decide)

/-- C4 counterexample: the capability-set `KillProcess` operation on a
process whose status is already terminal is not an errorless no-op — it
returns the "not found or not running" error. -/
theorem C4_counterexample_capability_kill_on_terminal_errors :
    UI.killProcessCB killedModel "p0" =
      (some "process p0 not found or not running", []) := by
  decide

/-- C4 amended: killing via the UI is idempotent — a second kill after
any kill is a pure no-op with no OS effect — and a UI kill on a
terminal selected process is a no-op; but the capability-set
`KillProcess` operation (which never mutates the table) returns a
"not found or not running" error, rather than nil, whenever no record
with the given identifier is live `Running` with an OS handle. -/
theorem handleKillKey_noop (m : UI.UIModel) (now : Nat)
    (h : ∀ sel, UI.getSelectedProcess m = some sel →
      (sel.status == UI.ProcessStatus.running && sel.hasCmd) = false) :
    UI.handleKillKey m now = (m, []) := by
  cases hsel : UI.getSelectedProcess m with
  | none => simp [UI.handleKillKey, hsel]
  | some sel => simp [UI.handleKillKey, hsel, h sel hsel]

theorem C4_kill_idempotent_but_capability_kill_errors_on_terminal (m : UI.UIModel) :
    (∀ now now2,
      UI.handleKillKey (UI.handleKillKey m now).1 now2 = ((UI.handleKillKey m now).1, [])) ∧
    (∀ now sel, UI.getSelectedProcess m = some sel →
      sel.status ≠ UI.ProcessStatus.running →
      UI.handleKillKey m now = (m, [])) ∧
    (∀ pid, (∀ p ∈ m.processes, p.id = pid → p.status ≠ UI.ProcessStatus.running) →
      UI.killProcessCB m pid =
        (some ("process " ++ pid ++ " not found or not running"), [])) := by
  refine ⟨?_, ?_, ?_⟩
  · intro now now2
    cases hsel : UI.getSelectedProcess m with
    | none =>
      have h1 : UI.handleKillKey m now = (m, []) := by simp [UI.handleKillKey, hsel]
      rw [h1]
      simp [UI.handleKillKey, hsel]
    | some sel =>
      by_cases hguard : (sel.status == UI.ProcessStatus.running && sel.hasCmd) = true
      · obtain ⟨hlt, hget⟩ := getSelectedProcess_some m sel hsel
        have hfirst : UI.handleKillKey m now = ({ m with processes := m.processes.set m.selectedProcess (UI.addLog m.maxLogLines { sel with status := UI.ProcessStatus.cancelled, endTime := some now } "Killed by user") }, [UI.OSEffect.kill sel.id]) := by
          simp [UI.handleKillKey, hsel, hguard]
        rw [hfirst]
        refine handleKillKey_noop _ now2 ?_
        intro sel2 hsel2
        obtain ⟨hlt2, hget2⟩ := getSelectedProcess_some _ sel2 hsel2
        have hget2' : some (UI.addLog m.maxLogLines { sel with status := UI.ProcessStatus.cancelled, endTime := some now } "Killed by user") = some sel2 := by
          rw [← hget2]
          exact (get?_set_self _ _ _ hlt).symm
        have hsel2eq : sel2 = UI.addLog m.maxLogLines { sel with status := UI.ProcessStatus.cancelled, endTime := some now } "Killed by user" := by
          exact (Option.some.inj hget2').symm
        subst hsel2eq
        simp [UI.addLog]
      · have h1 : UI.handleKillKey m now = (m, []) := by
          simp [UI.handleKillKey, hsel, hguard]
        rw [h1]
        show UI.handleKillKey m now2 = (m, [])
        simp [UI.handleKillKey, hsel, hguard]
  · intro now sel hsel hterm
    have hb : (sel.status == UI.ProcessStatus.running && sel.hasCmd) = false := by
      have : (sel.status == UI.ProcessStatus.running) = false := by
        rw [beq_eq_false_iff_ne]
        exact hterm
      simp [this]
    simp [UI.handleKillKey, hsel, hb]
  · intro pid h
    have hnone : m.processes.find?
        (fun p => p.id == pid && p.status == UI.ProcessStatus.running && p.hasCmd) = none := by
      rw [List.find?_eq_none]
      intro a ha hcontra
      by_cases hid : a.id = pid
      · have hterm := h a ha hid
        have : (a.status == UI.ProcessStatus.running) = false := by
          rw [beq_eq_false_iff_ne]
          exact hterm
        simp [this] at hcontra
      · have : (a.id == pid) = false := by
          rw [beq_eq_false_iff_ne]
          exact hid
        simp [this] at hcontra
    simp [UI.killProcessCB, hnone]

theorem C4_kill_idempotent_but_capability_kill_errors_on_terminal_witness :
    UI.handleKillKey (UI.handleKillKey killedModel 5).1 6 =
      ((UI.handleKillKey killedModel 5).1, []) ∧
    UI.killProcessCB killedModel "p0" =
      (some ("process " ++ "p0" ++ " not found or not running"), []) :=
  ⟨(C4_kill_idempotent_but_capability_kill_errors_on_terminal killedModel).1 5 6,
   (C4_kill_idempotent_but_capability_kill_errors_on_terminal killedModel).2.2 "p0"
     (by decide)⟩

end LazyCap
